import Mathlib

/-!
Shallow embedding of the AuroraLang MVP compiler
(`src/aurc_native/src/compiler_stub.c`): line loader, shape classifier,
shape recognizers, IR validator, ISA encoder, manifest writer and manifest
assembler, together with theorems settling the specification claims.

Source lines are modelled as `List Char` (C `char` buffers restricted to
the ASCII manifests/programs the tool processes); machine integers are
modelled as `Int`/`Nat` with explicit reduction modulo `2 ^ 32` / clamping
to the 64-bit range where the C code converts between widths.
-/

namespace Aurc

/-! ## Character helpers (ctype.h / string.h) -/

/-- C `isspace` in the default locale. -/
def isWSpace (c : Char) : Bool :=
  c = ' ' || c = '\t' || c = '\n' || c = '\r' || c = Char.ofNat 11 || c = Char.ofNat 12

/-- The `trim` helper of the compiler: strip leading and trailing whitespace. -/
def trimChars (l : List Char) : List Char :=
  ((l.dropWhile isWSpace).reverse.dropWhile isWSpace).reverse

/-- `strncmp(line, pat, |pat|) == 0`: `line` starts with `pat`. -/
def startsWithChars : List Char → List Char → Bool
  | [], _ => true
  | _ :: _, [] => false
  | p :: ps, c :: cs => p = c && startsWithChars ps cs

/-- `strstr(l, pat) != NULL`: `pat` occurs as a contiguous substring. -/
def containsSub (pat : List Char) : List Char → Bool
  | [] => pat.isEmpty
  | c :: cs => startsWithChars pat (c :: cs) || containsSub pat cs

/-- Suffix of `l` starting at the first occurrence of `pat` (C `strstr`). -/
def strstrSuffix (pat : List Char) : List Char → Option (List Char)
  | [] => if pat.isEmpty then some [] else none
  | c :: cs =>
    if startsWithChars pat (c :: cs) then some (c :: cs) else strstrSuffix pat cs

/-- `strchr(l, c) != NULL`: `c` occurs in `l`. -/
def containsChar : List Char → Char → Bool
  | [], _ => false
  | x :: xs, c => x = c || containsChar xs c

/-- Index of the first occurrence of `c` (C `strchr`). -/
def strchrIdx (l : List Char) (c : Char) : Option Nat :=
  l.findIdx? (· = c)

/-- Index of the last occurrence of `c` (C `strrchr`). -/
def strrchrIdx (l : List Char) (c : Char) : Option Nat :=
  match strchrIdx l.reverse c with
  | some i => some (l.length - 1 - i)
  | none => none

/-! ## `sscanf` conversion primitives

Each `sscanf` call in the C source is hand-translated with the standard C
semantics: a whitespace character in the format matches any (possibly
empty) run of whitespace, an ordinary character must match exactly, a
`%N[^X]` scanset consumes one to `N` characters distinct from `X` (failing
on zero), and the call's return value counts conversions completed before
the first failure, so trailing literal format characters after the last
converted field never affect the tests `== 1` / `== 2` / `== 3` used by
the compiler. -/

/-- Match the exact character `c`. -/
def litC (c : Char) : List Char → Option (List Char)
  | [] => none
  | x :: xs => if x = c then some xs else none

/-- Match an exact literal character sequence. -/
def litSeq : List Char → List Char → Option (List Char)
  | [], s => some s
  | p :: ps, s =>
    match s with
    | [] => none
    | c :: cs => if c = p then litSeq ps cs else none

/-- A whitespace directive in a format: skip any run of whitespace. -/
def wsSkip (s : List Char) : List Char := s.dropWhile isWSpace

/-- `%N[^stop]`: consume 1..max characters on which `stop` is false. -/
def scanSet (stop : Char → Bool) (max : Nat) (s : List Char) :
    Option (List Char × List Char) :=
  let t := (s.takeWhile (fun c => !stop c)).take max
  if t = [] then none else some (t, s.drop t.length)

/-- C `isdigit`. -/
def isDigitC (c : Char) : Bool := '0' ≤ c && c ≤ '9'

/-- Value of a decimal digit string. -/
def decValue (ds : List Char) : Nat :=
  ds.foldl (fun a c => 10 * a + (c.toNat - '0'.toNat)) 0

/-- Optional leading sign of a C numeric conversion: the sign flag and the
remainder after it. -/
def signSplit (s : List Char) : Bool × List Char :=
  match s with
  | c :: rest =>
    if c = '-' then (true, rest) else if c = '+' then (false, rest) else (false, s)
  | [] => (false, s)

/-- `%d`: skip whitespace, optional sign, then at least one decimal digit. -/
def scanIntFmt (s : List Char) : Option (Int × List Char) :=
  let s0 := wsSkip s
  let p := signSplit s0
  let ds := p.2.takeWhile isDigitC
  if ds = [] then none
  else
    let mag : Int := decValue ds
    some (if p.1 then -mag else mag, p.2.drop ds.length)

/-! ## Integer width conversions -/

/-- C cast of a 64-bit value to 32-bit two's-complement (`(int)value`),
reduction modulo `2 ^ 32` into `[-2^31, 2^31)`. -/
def wrap32 (v : Int) : Int :=
  let m := v % 4294967296
  if m < 2147483648 then m else m - 4294967296

/-- `strtoll` clamps an out-of-range literal to the signed 64-bit bounds. -/
def clamp64 (v : Int) : Int :=
  if v > 9223372036854775807 then 9223372036854775807
  else if v < -9223372036854775808 then -9223372036854775808
  else v

/-- `strtoll(expr, &endptr, 10)`: skip whitespace, optional sign, digits;
`none` when no digits were consumed (C reports this via `endptr == expr`);
otherwise the clamped value and the rest of the string (`endptr`). -/
def strtoll10 (s : List Char) : Option (Int × List Char) :=
  let s0 := wsSkip s
  let p := signSplit s0
  let ds := p.2.takeWhile isDigitC
  if ds = [] then none
  else
    let mag : Int := decValue ds
    some (clamp64 (if p.1 then -mag else mag), p.2.drop ds.length)

/-! ## Keyword constants -/

def kwLetSp : List Char := ("let ".data)
def kwWhile : List Char := ("while".data)
def kwPrintReq : List Char := ("request service print".data)
def kwExitReq : List Char := ("request service exit".data)
def kwReturn : List Char := ("return".data)
def strTypeMarker : List Char := (": string =".data)
def intTypeMarker : List Char := (": int =".data)

/-! ## Error taxonomy (one constructor per `fprintf(stderr, ...)` exit) -/

inductive Err where
  | DuplicateStringBinding
  | TooManyStringBindings
  | DuplicateIntBinding
  | TooManyIntBindings
  | MalformedExitStmt
  | MalformedReturnStmt
  | ExpectedWhileLoop
  | LoopBodyTooShort
  | ExpectedAccumAssign
  | ExpectedCounterDecrement
  | AccumSameVar
  | AccumAddsCounter
  | DecTargetsCounter
  | DecSubtractsOne
  | UndefinedLoopVars
  | MultipleMul
  | MultipleDiv
  | MalformedMul
  | MalformedDiv
  | UnsupportedInitializer
  | TooManyPiBindings
  | PiNeedsMulDiv
  | PiNeedsExitReturn
  | PiExitReturnMismatch
  | ExitMustTargetResult
  | ResultMustDivideTemp
  | UndefinedPiOperands
  | InputTooLarge
  | UnsupportedShape
  | ExpectedStringBinding
  | ExpectedPrintCall
  | ExpectedExitReturn
  | PrintArgUnresolved
  | PrintArgMismatch
  | ExitReturnMismatch
  | ExitCodeNonZero
  | LoopMissingVars
  | LoopExitReturnTarget
  | PiMissingBindings
  | DenominatorZero
  | PiExitReturnTarget
  | UnrecognisedKind
  deriving DecidableEq, Repr

/-- Decidable equality on `Except`, so that concrete runs of the embedded
pipeline can be checked by evaluation. -/
instance exceptDecEq {ε α : Type} [DecidableEq ε] [DecidableEq α] :
    DecidableEq (Except ε α)
  | .error a, .error b =>
    if h : a = b then .isTrue (by rw [h]) else .isFalse (by simp [h])
  | .error _, .ok _ => .isFalse (by simp)
  | .ok _, .error _ => .isFalse (by simp)
  | .ok a, .ok b =>
    if h : a = b then .isTrue (by rw [h]) else .isFalse (by simp [h])

/-! ## Program IR (struct program_ir and friends) -/

structure string_binding where
  name : List Char
  literal : List Char
  deriving DecidableEq, Repr

inductive program_kind where
  | PROGRAM_NONE
  | PROGRAM_STRING
  | PROGRAM_LOOP_SUM
  | PROGRAM_PI_TEST
  deriving DecidableEq, Repr

structure loop_ir where
  accumulator : List Char := []
  accumulator_init : Int := 0
  counter : List Char := []
  counter_init : Int := 0
  exit_var : List Char := []
  return_var : List Char := []
  deriving DecidableEq, Repr

structure pi_ir where
  numerator_var : List Char := []
  numerator_value : Int := 0
  denominator_var : List Char := []
  denominator_value : Int := 0
  scale_var : List Char := []
  scale_value : Int := 0
  temp_var : List Char := []
  temp_lhs : List Char := []
  temp_rhs : List Char := []
  result_var : List Char := []
  result_lhs : List Char := []
  result_rhs : List Char := []
  exit_var : List Char := []
  return_var : List Char := []
  deriving DecidableEq, Repr

structure program_ir where
  kind : program_kind := .PROGRAM_NONE
  bindings : List string_binding := []
  print_binding_index : Int := -1
  print_arg : List Char := []
  have_print : Bool := false
  exit_value : Int := 0
  return_value : Int := 0
  have_exit : Bool := false
  have_return : Bool := false
  loop : loop_ir := {}
  pi : pi_ir := {}
  deriving DecidableEq, Repr

/-- `memset(ir, 0, ...)` followed by `ir->print_binding_index = -1`. -/
def init_ir : program_ir := {}

/-- `find_string_binding_index`: position of `name` among bindings, or -1. -/
def find_string_binding_index (ir : program_ir) (name : List Char) : Int :=
  match ir.bindings.findIdx? (fun b => b.name = name) with
  | some i => (i : Int)
  | none => -1

/-- `add_string_binding`: reject duplicates and more than 8 bindings. -/
def add_string_binding (ir : program_ir) (name literal : List Char) :
    Except Err program_ir :=
  if 0 ≤ find_string_binding_index ir name then .error .DuplicateStringBinding
  else if 8 ≤ ir.bindings.length then .error .TooManyStringBindings
  else .ok { ir with bindings := ir.bindings ++ [⟨name, literal⟩] }

/-! ## String recognizer (`parse_string_program`) -/

/-- `sscanf(line, "let %127[^:]: string = \"%1023[^\"]\";", name, literal) == 2`. -/
def scan_let_string (line : List Char) : Option (List Char × List Char) := do
  let s0 ← litSeq ("let".data) line
  let (name, s1) ← scanSet (· = ':') 127 (wsSkip s0)
  let s2 ← litC ':' s1
  let s3 ← litSeq ("string".data) (wsSkip s2)
  let s4 ← litC '=' (wsSkip s3)
  let s5 ← litC '"' (wsSkip s4)
  let (lit, _) ← scanSet (· = '"') 1023 s5
  pure (name, lit)

/-- `sscanf(line, "request service exit(%d);", &value) == 1`. -/
def scan_exit_int (line : List Char) : Option Int := do
  let s0 ← litSeq ("request".data) line
  let s1 ← litSeq ("service".data) (wsSkip s0)
  let s2 ← litSeq ("exit(".data) (wsSkip s1)
  let (v, _) ← scanIntFmt s2
  pure v

/-- `sscanf(line, "return %d;", &value) == 1`. -/
def scan_return_int (line : List Char) : Option Int := do
  let s0 ← litSeq ("return".data) line
  let (v, _) ← scanIntFmt s0
  pure v

/-- The `request service print` branch: `strchr('(')`, `strrchr(')')`, the
argument text between them (truncated to 127 chars) when `close > open + 1`. -/
def scan_print_arg (line : List Char) : Option (List Char) :=
  match strchrIdx line '(', strrchrIdx line ')' with
  | some o, some c =>
    if o + 1 < c then
      let len := min (c - o - 1) 127
      some ((line.drop (o + 1)).take len)
    else none
  | _, _ => none

/-- One iteration of the `parse_string_program` line loop. -/
def stepString (ir : program_ir) (line : List Char) : Except Err program_ir :=
  if startsWithChars kwLetSp line then
    match scan_let_string line with
    | some (name, lit) => add_string_binding ir (trimChars name) lit
    | none => .ok ir
  else if startsWithChars kwPrintReq line then
    match scan_print_arg line with
    | some raw =>
      let arg := trimChars raw
      let idx := find_string_binding_index ir arg
      .ok { ir with
            print_arg := arg
            have_print := true
            print_binding_index := if 0 ≤ idx then idx else ir.print_binding_index }
    | none => .ok ir
  else if startsWithChars kwExitReq line then
    match scan_exit_int line with
    | some v => .ok { ir with exit_value := v, have_exit := true }
    | none => .ok ir
  else if startsWithChars kwReturn line then
    match scan_return_int line with
    | some v => .ok { ir with return_value := v, have_return := true }
    | none => .ok ir
  else .ok ir

def parse_string_program (lines : List (List Char)) (ir : program_ir) :
    Except Err program_ir :=
  match lines with
  | [] => .ok { ir with kind := .PROGRAM_STRING }
  | l :: rest => (stepString ir l).bind (parse_string_program rest)

/-! ## Loop-Sum recognizer (`parse_loop_sum_program`) -/

structure int_binding where
  name : List Char
  value : Int
  deriving DecidableEq, Repr

/-- `find_binding`: linear lookup by name. -/
def find_binding (bindings : List int_binding) (name : List Char) :
    Option int_binding :=
  bindings.find? (fun b => b.name = name)

/-- `sscanf(line, "let %127[^:]: int = %d;", name, &value) == 2`.
Note the loop recognizer stores `name` untrimmed. -/
def scan_let_int (line : List Char) : Option (List Char × Int) := do
  let s0 ← litSeq ("let".data) line
  let (name, s1) ← scanSet (· = ':') 127 (wsSkip s0)
  let s2 ← litC ':' s1
  let s3 ← litSeq ("int".data) (wsSkip s2)
  let s4 ← litC '=' (wsSkip s3)
  let (v, _) ← scanIntFmt s4
  pure (name, v)

/-- `sscanf(line, "while %127[^>]> 0 {", var) == 1`: only the scanset
conversion matters for the return value. -/
def scan_while_var (line : List Char) : Option (List Char) := do
  let s0 ← litSeq ("while".data) line
  let (var, _) ← scanSet (· = '>') 127 (wsSkip s0)
  pure var

/-- `sscanf(line, "request service exit(%127[^)]);", buf) == 1`. -/
def scan_exit_var (line : List Char) : Option (List Char) := do
  let s0 ← litSeq ("request".data) line
  let s1 ← litSeq ("service".data) (wsSkip s0)
  let s2 ← litSeq ("exit(".data) (wsSkip s1)
  let (v, _) ← scanSet (· = ')') 127 s2
  pure v

/-- `sscanf(line, "return %127[^;];", buf) == 1`. -/
def scan_return_var (line : List Char) : Option (List Char) := do
  let s0 ← litSeq ("return".data) line
  let (v, _) ← scanSet (· = ';') 127 (wsSkip s0)
  pure v

/-- `sscanf(line, "%127[^=]= %127[^+]+ %127[^;];", t, l, r) == 3`. -/
def scan_add_stmt (line : List Char) : Option (List Char × List Char × List Char) := do
  let (t, s0) ← scanSet (· = '=') 127 line
  let s1 ← litC '=' s0
  let (l, s2) ← scanSet (· = '+') 127 (wsSkip s1)
  let s3 ← litC '+' s2
  let (r, _) ← scanSet (· = ';') 127 (wsSkip s3)
  pure (t, l, r)

/-- `sscanf(line, "%127[^=]= %127[^-]- %127[^;];", t, l, r) == 3`. -/
def scan_sub_stmt (line : List Char) : Option (List Char × List Char × List Char) := do
  let (t, s0) ← scanSet (· = '=') 127 line
  let s1 ← litC '=' s0
  let (l, s2) ← scanSet (· = '-') 127 (wsSkip s1)
  let s3 ← litC '-' s2
  let (r, _) ← scanSet (· = ';') 127 (wsSkip s3)
  pure (t, l, r)

/-- Scan state of the first line pass of `parse_loop_sum_program`. -/
structure loop_scan where
  bindings : List int_binding := []
  loop_start : Int := -1
  loop_var : List Char := []
  exit_var : List Char := []
  return_var : List Char := []
  deriving DecidableEq, Repr

/-- One iteration of the `parse_loop_sum_program` line loop (index `i`). -/
def stepLoop (i : Nat) (st : loop_scan) (line : List Char) :
    Except Err loop_scan :=
  if startsWithChars kwLetSp line && containsSub intTypeMarker line then
    match scan_let_int line with
    | some (name, v) =>
      if (find_binding st.bindings name).isSome then .error .DuplicateIntBinding
      else if 8 ≤ st.bindings.length then .error .TooManyIntBindings
      else .ok { st with bindings := st.bindings ++ [⟨name, v⟩] }
    | none => .ok st
  else if startsWithChars kwWhile line then
    match scan_while_var line with
    | some var => .ok { st with loop_var := trimChars var, loop_start := (i : Int) }
    | none => .ok st
  else if startsWithChars kwExitReq line then
    match scan_exit_var line with
    | some v => .ok { st with exit_var := trimChars v }
    | none => .error .MalformedExitStmt
  else if startsWithChars kwReturn line then
    match scan_return_var line with
    | some v => .ok { st with return_var := trimChars v }
    | none => .error .MalformedReturnStmt
  else .ok st

def loop_first_pass (i : Nat) (lines : List (List Char)) (st : loop_scan) :
    Except Err loop_scan :=
  match lines with
  | [] => .ok st
  | l :: rest => (stepLoop i st l).bind (loop_first_pass (i + 1) rest)

/-- The checks after the line pass of `parse_loop_sum_program`. -/
def loop_second_pass (lines : List (List Char)) (ir : program_ir)
    (st : loop_scan) : Except Err program_ir :=
  if st.loop_start < 0 then .error .ExpectedWhileLoop
  else
    let ls := st.loop_start.toNat
    if lines.length ≤ ls + 3 then .error .LoopBodyTooShort
    else
      match scan_add_stmt (lines.getD (ls + 1) []) with
      | none => .error .ExpectedAccumAssign
      | some (at_, al, ar) =>
        match scan_sub_stmt (lines.getD (ls + 2) []) with
        | none => .error .ExpectedCounterDecrement
        | some (st_, sl, sr) =>
          let ta := trimChars at_
          if ta ≠ trimChars al then .error .AccumSameVar
          else if trimChars ar ≠ st.loop_var then .error .AccumAddsCounter
          else if trimChars st_ ≠ st.loop_var || trimChars sl ≠ st.loop_var then
            .error .DecTargetsCounter
          else if trimChars sr ≠ ("1".data) then .error .DecSubtractsOne
          else
            match find_binding st.bindings ta, find_binding st.bindings st.loop_var with
            | some accB, some cntB =>
              .ok { ir with
                    kind := .PROGRAM_LOOP_SUM
                    loop := { accumulator := ta
                              accumulator_init := accB.value
                              counter := st.loop_var
                              counter_init := cntB.value
                              exit_var := st.exit_var
                              return_var := st.return_var } }
            | _, _ => .error .UndefinedLoopVars

def parse_loop_sum_program (lines : List (List Char)) (ir : program_ir) :
    Except Err program_ir :=
  (loop_first_pass 0 lines {}).bind (loop_second_pass lines ir)

/-! ## Pi-Approximation recognizer (`parse_pi_program`) -/

/-- `sscanf(line, "let %127[^:]: int = %255[^;];", name, expr) == 2`. -/
def scan_let_expr (line : List Char) : Option (List Char × List Char) := do
  let s0 ← litSeq ("let".data) line
  let (name, s1) ← scanSet (· = ':') 127 (wsSkip s0)
  let s2 ← litC ':' s1
  let s3 ← litSeq ("int".data) (wsSkip s2)
  let s4 ← litC '=' (wsSkip s3)
  let (expr, _) ← scanSet (· = ';') 255 (wsSkip s4)
  pure (name, expr)

/-- `sscanf(expr, "%127[^*]*%127[^;]", lhs, rhs) == 2`. -/
def scan_mul_expr (expr : List Char) : Option (List Char × List Char) := do
  let (l, s0) ← scanSet (· = '*') 127 expr
  let s1 ← litC '*' s0
  let (r, _) ← scanSet (· = ';') 127 s1
  pure (l, r)

/-- `sscanf(expr, "%127[^/]/%127[^;]", lhs, rhs) == 2`. -/
def scan_div_expr (expr : List Char) : Option (List Char × List Char) := do
  let (l, s0) ← scanSet (· = '/') 127 expr
  let s1 ← litC '/' s0
  let (r, _) ← scanSet (· = ';') 127 s1
  pure (l, r)

/-- Scan state of the line pass of `parse_pi_program`. -/
structure pi_scan where
  bindings : List int_binding := []
  have_mul : Bool := false
  have_div : Bool := false
  pi : pi_ir := {}
  deriving DecidableEq, Repr

/-- One iteration of the `parse_pi_program` line loop. -/
def stepPi (st : pi_scan) (line : List Char) : Except Err pi_scan :=
  if startsWithChars kwLetSp line then
    match scan_let_expr line with
    | some (nameRaw, exprRaw) =>
      let name := trimChars nameRaw
      let expr := trimChars exprRaw
      if containsChar expr '*' then
        if st.have_mul then .error .MultipleMul
        else
          match scan_mul_expr expr with
          | none => .error .MalformedMul
          | some (l, r) =>
            .ok { st with
                  have_mul := true
                  pi := { st.pi with
                          temp_var := name
                          temp_lhs := trimChars l
                          temp_rhs := trimChars r } }
      else if containsChar expr '/' then
        if st.have_div then .error .MultipleDiv
        else
          match scan_div_expr expr with
          | none => .error .MalformedDiv
          | some (l, r) =>
            .ok { st with
                  have_div := true
                  pi := { st.pi with
                          result_var := name
                          result_lhs := trimChars l
                          result_rhs := trimChars r } }
      else
        match strtoll10 expr with
        | none => .error .UnsupportedInitializer
        | some (v, rest) =>
          if rest ≠ [] then .error .UnsupportedInitializer
          else if 8 ≤ st.bindings.length then .error .TooManyPiBindings
          else .ok { st with bindings := st.bindings ++ [⟨name, wrap32 v⟩] }
    | none => .ok st
  else if startsWithChars kwExitReq line then
    match scan_exit_var line with
    | some v => .ok { st with pi := { st.pi with exit_var := trimChars v } }
    | none => .error .MalformedExitStmt
  else if startsWithChars kwReturn line then
    match scan_return_var line with
    | some v => .ok { st with pi := { st.pi with return_var := trimChars v } }
    | none => .error .MalformedReturnStmt
  else .ok st

def pi_line_pass (lines : List (List Char)) (st : pi_scan) :
    Except Err pi_scan :=
  match lines with
  | [] => .ok st
  | l :: rest => (stepPi st l).bind (pi_line_pass rest)

/-- The cross-checks after the line pass of `parse_pi_program`. -/
def pi_second_pass (ir : program_ir) (st : pi_scan) : Except Err program_ir :=
  if !(st.have_mul && st.have_div) then .error .PiNeedsMulDiv
  else if st.pi.exit_var = [] || st.pi.return_var = [] then .error .PiNeedsExitReturn
  else if st.pi.exit_var ≠ st.pi.return_var then .error .PiExitReturnMismatch
  else if st.pi.result_var ≠ st.pi.exit_var then .error .ExitMustTargetResult
  else if st.pi.result_lhs ≠ st.pi.temp_var then .error .ResultMustDivideTemp
  else
    match find_binding st.bindings st.pi.temp_lhs,
          find_binding st.bindings st.pi.temp_rhs,
          find_binding st.bindings st.pi.result_rhs with
    | some mulL, some mulR, some denB =>
      .ok { ir with
            kind := .PROGRAM_PI_TEST
            pi := { st.pi with
                    numerator_var := mulL.name
                    numerator_value := mulL.value
                    scale_var := mulR.name
                    scale_value := mulR.value
                    denominator_var := denB.name
                    denominator_value := denB.value } }
    | _, _, _ => .error .UndefinedPiOperands

def parse_pi_program (lines : List (List Char)) (ir : program_ir) :
    Except Err program_ir :=
  (pi_line_pass lines {}).bind (pi_second_pass ir)

/-! ## Line loader and shape classifier (`parse_source`) -/

/-- The line loader: trim every raw line, drop blanks, cap at 256 lines. -/
def load_lines (raw : List (List Char)) : Except Err (List (List Char)) :=
  let ls := (raw.map trimChars).filter (fun l => l ≠ [])
  if 256 < ls.length then .error .InputTooLarge else .ok ls

/-- The shape classifier and dispatch of `parse_source`, acting on the
loaded line sequence. -/
def parse_source_lines (lines : List (List Char)) : Except Err program_ir :=
  let has_string_binding := lines.any (fun l => containsSub strTypeMarker l)
  let has_loop := lines.any (fun l => startsWithChars kwWhile l)
  if has_loop then parse_loop_sum_program lines init_ir
  else
    let has_arithmetic_chain := lines.any (fun l => containsChar l '*' || containsChar l '/')
    if has_arithmetic_chain then parse_pi_program lines init_ir
    else if has_string_binding then parse_string_program lines init_ir
    else .error .UnsupportedShape

def parse_source (raw : List (List Char)) : Except Err program_ir :=
  (load_lines raw).bind parse_source_lines

/-! ## IR validator (`validate_program`) -/

def validate_program (ir : program_ir) : Except Err program_ir :=
  match ir.kind with
  | .PROGRAM_STRING =>
    if ir.bindings.length = 0 then .error .ExpectedStringBinding
    else if !ir.have_print then .error .ExpectedPrintCall
    else if !ir.have_exit || !ir.have_return then .error .ExpectedExitReturn
    else
      let idx0 := ir.print_binding_index
      let resolve : Except Err program_ir :=
        if idx0 < 0 || (ir.bindings.length : Int) ≤ idx0 then
          let idx := find_string_binding_index ir ir.print_arg
          if idx < 0 then .error .PrintArgUnresolved
          else .ok { ir with print_binding_index := idx }
        else .ok ir
      resolve.bind (fun ir2 =>
        let binding := ir2.bindings.getD ir2.print_binding_index.toNat ⟨[], []⟩
        if ir2.print_arg ≠ binding.name then .error .PrintArgMismatch
        else if ir2.exit_value ≠ ir2.return_value then .error .ExitReturnMismatch
        else if ir2.exit_value ≠ 0 then .error .ExitCodeNonZero
        else .ok ir2)
  | .PROGRAM_LOOP_SUM =>
    if ir.loop.accumulator = [] || ir.loop.counter = [] then .error .LoopMissingVars
    else if ir.loop.exit_var ≠ ir.loop.accumulator
            || ir.loop.return_var ≠ ir.loop.accumulator then
      .error .LoopExitReturnTarget
    else .ok ir
  | .PROGRAM_PI_TEST =>
    if ir.pi.numerator_var = [] || ir.pi.denominator_var = []
        || ir.pi.scale_var = [] then .error .PiMissingBindings
    else if ir.pi.denominator_value = 0 then .error .DenominatorZero
    else if ir.pi.result_var ≠ ir.pi.exit_var
            || ir.pi.return_var ≠ ir.pi.result_var then
      .error .PiExitReturnTarget
    else .ok ir
  | .PROGRAM_NONE => .error .UnrecognisedKind

/-- `load_program_ir`: parse then validate. -/
def load_program_ir (raw : List (List Char)) : Except Err program_ir :=
  (parse_source raw).bind validate_program

/-! ## ISA encoder

Instruction words are 64-bit values modelled as `Nat < 2 ^ 64`; the C
`(uint32_t)value` cast of a 32-bit immediate is explicit reduction modulo
`2 ^ 32`. -/

/-- `(uint32_t)value` for a signed immediate. -/
def immBits (v : Int) : Nat := (v % 4294967296).toNat

/-- `pack_instruction_word`: opcode in the top byte, three operand bytes,
32-bit immediate in the low half. -/
def pack_instruction_word (opcode op0 op1 op2 imm32 : Nat) : Nat :=
  opcode <<< 56 ||| op0 <<< 48 ||| op1 <<< 40 ||| op2 <<< 32 ||| imm32

/-- operand tag bytes -/
def ISA_OPERAND_IMMEDIATE : Nat := 255
def ISA_OPERAND_LABEL : Nat := 254

def encode_mov_immediate (dest : Nat) (value : Int) : Nat :=
  pack_instruction_word 1 dest ISA_OPERAND_IMMEDIATE 0 (immBits value)

def encode_mov_register (dest source : Nat) : Nat :=
  pack_instruction_word 1 dest source 0 0

def encode_mov_label (dest : Nat) : Nat :=
  pack_instruction_word 1 dest ISA_OPERAND_LABEL 0 0

def encode_arith_reg_reg (opcode dest lhs rhs : Nat) : Nat :=
  pack_instruction_word opcode dest lhs rhs 0

def encode_arith_reg_imm (opcode dest lhs : Nat) (imm : Int) : Nat :=
  pack_instruction_word opcode dest lhs ISA_OPERAND_IMMEDIATE (immBits imm)

def encode_cmp_reg_imm (lhs : Nat) (imm : Int) : Nat :=
  pack_instruction_word 6 lhs ISA_OPERAND_IMMEDIATE 0 (immBits imm)

def encode_cjmp (cond : Nat) : Nat :=
  pack_instruction_word 8 cond ISA_OPERAND_LABEL 0 0

def encode_jmp : Nat :=
  pack_instruction_word 7 ISA_OPERAND_LABEL 0 0 0

/-- `ensure_signed_32_range` — `true` means the check fails (C returns 1). -/
def ensure_signed_32_range (v : Int) : Bool :=
  v < -2147483648 || 2147483647 < v

/-- The instruction words of `emit_loop_manifest`, in emission order:
mov r1,#acc; mov r2,#cnt; loop: add r1,r1,r2; sub r2,r2,#1; cmp r2,#0;
cjmp eq,exit; jmp loop; exit: mov r0,r1. -/
def loop_instruction_words (ir : loop_ir) : List Nat :=
  [encode_mov_immediate 1 ir.accumulator_init,
   encode_mov_immediate 2 ir.counter_init,
   encode_arith_reg_reg 4 1 1 2,
   encode_arith_reg_imm 5 2 2 1,
   encode_cmp_reg_imm 2 0,
   encode_cjmp 1,
   encode_jmp,
   encode_mov_register 0 1]

/-- `emit_loop_manifest` restricted to its instruction words: the range
checks happen before any instruction is emitted. -/
def emit_loop_words (ir : loop_ir) : Option (List Nat) :=
  if ensure_signed_32_range ir.accumulator_init then none
  else if ensure_signed_32_range ir.counter_init then none
  else some (loop_instruction_words ir)

/-- The instruction words of `emit_pi_manifest`, in emission order:
mov r1,#num; mov r2,#den; mov r3,#scale; mul r4,r1,r3; rem r6,r4,r2;
div r5,r4,r2; mov r0,r5. -/
def pi_instruction_words (ir : pi_ir) : List Nat :=
  [encode_mov_immediate 1 ir.numerator_value,
   encode_mov_immediate 2 ir.denominator_value,
   encode_mov_immediate 3 ir.scale_value,
   encode_arith_reg_reg 13 4 1 3,
   encode_arith_reg_reg 15 6 4 2,
   encode_arith_reg_reg 14 5 4 2,
   encode_mov_register 0 5]

/-- `emit_pi_manifest` restricted to its instruction words. -/
def emit_pi_words (ir : pi_ir) : Option (List Nat) :=
  if ensure_signed_32_range ir.numerator_value then none
  else if ensure_signed_32_range ir.denominator_value then none
  else if ensure_signed_32_range ir.scale_value then none
  else some (pi_instruction_words ir)

/-! ## Manifest writer (`emit_manifest`) -/

def decDigit (d : Nat) : Char := Char.ofNat ('0'.toNat + d)

/-- Decimal digits of a natural number (`%d` / `%u` formatting core). -/
def natDec (n : Nat) : List Char :=
  if _h : n < 10 then [decDigit n]
  else natDec (n / 10) ++ [decDigit (n % 10)]
termination_by n
decreasing_by exact Nat.div_lt_self (by omega) (by omega)

/-- `snprintf` `%d` of a signed value. -/
def intDec (v : Int) : List Char :=
  if v < 0 then '-' :: natDec (-v).toNat else natDec v.toNat

def hexDigitU (d : Nat) : Char :=
  if d < 10 then Char.ofNat ('0'.toNat + d) else Char.ofNat ('A'.toNat + (d - 10))

/-- `%016llX`: sixteen uppercase hex digits. -/
def hex16 (w : Nat) : List Char :=
  (List.range 16).reverse.map (fun i => hexDigitU (w / 16 ^ i % 16))

/-- `emit_instruction_word`: one `bytes` directive line with a comment. -/
def emit_instruction_line (w : Nat) (comment : List Char) : List Char :=
  ("bytes 0x".data) ++ hex16 w ++ ("  ; ".data) ++ comment

structure runtime_flags where
  print_and_exit : Bool := false
  exit_with_r0 : Bool := false
  deriving DecidableEq, Repr

/-- `emit_runtime_section`: the shared runtime routine blocks, each at most
once, print-and-exit first. -/
def emit_runtime_section (f : runtime_flags) : List (List Char) :=
  (if f.print_and_exit then
    [("label __aur_runtime_print_and_exit".data),
     ("bytes 0x0B01010000000000  ; svc 0x01 write(stdout)".data),
     ("bytes 0x0B02000000000000  ; svc 0x02 exit(r0)".data),
     ("halt".data),
     []]
   else []) ++
  (if f.exit_with_r0 then
    [("label __aur_runtime_exit_with_r0".data),
     ("bytes 0x0B02000000000000  ; svc 0x02 exit(r0)".data),
     ("halt".data),
     []]
   else [])

/-- `write_escape_ascii`: quote-escaped ascii directive line. -/
def write_escape_ascii (lit : List Char) : List Char :=
  ("ascii \"".data)
    ++ (lit.map (fun c => if c = '"' then ['\\', '"'] else [c])).flatten
    ++ ("\"".data)

/-- `emit_string_manifest`: manifest lines, success flag, runtime flags. -/
def emit_string_manifest (ir : program_ir) : List (List Char) × Bool × runtime_flags :=
  if ir.print_binding_index < 0 || (ir.bindings.length : Int) ≤ ir.print_binding_index then
    ([], false, {})
  else
    let pb := ir.bindings.getD ir.print_binding_index.toNat ⟨[], []⟩
    let hdr := [("# Aurora Minimal ISA manifest (manual draft)".data),
                ("header minimal_isa".data),
                ("org 0x0000".data),
                ("label main".data)]
    let movs := [emit_instruction_line (encode_mov_label 1)
                   (("mov r1, #addr(".data) ++ pb.name ++ (")".data)),
                 emit_instruction_line (encode_mov_immediate 0 0) ("mov r0, #0".data)]
    let datas := (ir.bindings.map (fun b =>
      [("label ".data) ++ b.name, write_escape_ascii b.literal, ("pad 0x0010".data)])).flatten
    (hdr ++ movs ++ [[]] ++ datas, true, { print_and_exit := true })

/-- `emit_loop_manifest`: header lines are written before the range checks,
so a failing check leaves the header as partial output. -/
def emit_loop_manifest (ir : loop_ir) : List (List Char) × Bool × runtime_flags :=
  let hdr := [("# Minimal ISA manifest for arithmetic loop example".data),
              ("header minimal_isa".data),
              ("org 0x0000".data),
              ("label main".data)]
  if ensure_signed_32_range ir.accumulator_init then (hdr, false, {})
  else if ensure_signed_32_range ir.counter_init then (hdr, false, {})
  else
    (hdr ++
     [emit_instruction_line (encode_mov_immediate 1 ir.accumulator_init)
        (("mov r1, #".data) ++ intDec ir.accumulator_init ++ ("             ; accumulator".data)),
      emit_instruction_line (encode_mov_immediate 2 ir.counter_init)
        (("mov r2, #".data) ++ intDec ir.counter_init ++ ("             ; counter".data)),
      ("label loop".data),
      emit_instruction_line (encode_arith_reg_reg 4 1 1 2)
        ("add r1, r1, r2         ; accumulator += counter".data),
      emit_instruction_line (encode_arith_reg_imm 5 2 2 1)
        ("sub r2, r2, #1         ; counter--".data),
      emit_instruction_line (encode_cmp_reg_imm 2 0)
        ("cmp r2, #0             ; compare with zero".data),
      emit_instruction_line (encode_cjmp 1)
        ("cjmp eq, exit          ; if zero -> exit".data),
      emit_instruction_line encode_jmp
        ("jmp loop               ; loop back (patched later)".data),
      ("label exit".data),
      emit_instruction_line (encode_mov_register 0 1)
        ("mov r0, r1             ; move result into r0".data)],
     true, { exit_with_r0 := true })

/-- `emit_pi_manifest`. -/
def emit_pi_manifest (ir : pi_ir) : List (List Char) × Bool × runtime_flags :=
  let hdr := [("# Minimal ISA manifest for pi approximation test".data),
              ("header minimal_isa".data),
              ("org 0x0000".data),
              ("label main".data)]
  if ensure_signed_32_range ir.numerator_value then (hdr, false, {})
  else if ensure_signed_32_range ir.denominator_value then (hdr, false, {})
  else if ensure_signed_32_range ir.scale_value then (hdr, false, {})
  else
    (hdr ++
     [emit_instruction_line (encode_mov_immediate 1 ir.numerator_value)
        (("mov r1, #".data) ++ intDec ir.numerator_value ++ ("             ; ".data) ++ ir.numerator_var),
      emit_instruction_line (encode_mov_immediate 2 ir.denominator_value)
        (("mov r2, #".data) ++ intDec ir.denominator_value ++ ("             ; ".data) ++ ir.denominator_var),
      emit_instruction_line (encode_mov_immediate 3 ir.scale_value)
        (("mov r3, #".data) ++ intDec ir.scale_value ++ ("             ; ".data) ++ ir.scale_var),
      emit_instruction_line (encode_arith_reg_reg 13 4 1 3)
        ("mul r4, r1, r3           ; temp = numerator * scale".data),
      emit_instruction_line (encode_arith_reg_reg 15 6 4 2)
        ("rem r6, r4, r2           ; remainder (diagnostics)".data),
      emit_instruction_line (encode_arith_reg_reg 14 5 4 2)
        ("div r5, r4, r2           ; pi_scaled = temp / denominator".data),
      emit_instruction_line (encode_mov_register 0 5)
        ("mov r0, r5             ; move result into r0".data)],
     true, { exit_with_r0 := true })

/-- `emit_manifest`: dispatch on the program kind, then append the runtime
section when emission succeeded and some runtime routine is required. -/
def emit_manifest (ir : program_ir) : List (List Char) × Bool :=
  let out :=
    match ir.kind with
    | .PROGRAM_STRING => emit_string_manifest ir
    | .PROGRAM_LOOP_SUM => emit_loop_manifest ir.loop
    | .PROGRAM_PI_TEST => emit_pi_manifest ir.pi
    | .PROGRAM_NONE => ([], false, {})
  match out with
  | (lines, ok, flags) =>
    if ok && (flags.print_and_exit || flags.exit_with_r0) then
      (lines ++ [[]] ++ emit_runtime_section flags, true)
    else (lines, ok)

/-- `aurc_compile_file`: on a load (parse + validate) error no output file
is ever opened, hence `.error`; otherwise the manifest text with the
emission success flag. -/
def aurc_compile_file (raw : List (List Char)) :
    Except Err (List (List Char) × Bool) :=
  (load_program_ir raw).map emit_manifest

/-! ## Manifest assembler (`aurc_assemble_manifest`)

The C assembler streams bytes to the output file with `fputc`/`fwrite`
while scanning; each byte-producing helper is therefore modelled as the
list of bytes it has written together with a success flag, and a failing
directive keeps everything already written. -/

/-- `hex_value`: value of a hex digit, or -1. -/
def hex_value (c : Char) : Int :=
  if '0' ≤ c && c ≤ '9' then (c.toNat : Int) - 48
  else if 'a' ≤ c && c ≤ 'f' then 10 + ((c.toNat : Int) - 97)
  else if 'A' ≤ c && c ≤ 'F' then 10 + ((c.toNat : Int) - 65)
  else -1

/-- After the scan loop of `emit_hex_bytes`: a pending high nibble means an
odd digit count, and zero written bytes is also an error. -/
def hex_finish (high : Option Nat) (acc : List Nat) : List Nat × Bool :=
  match high with
  | some _ => (acc, false)
  | none => if acc.isEmpty then (acc, false) else (acc, true)

/-- The scan loop of `emit_hex_bytes`: stop at `;` or whitespace, skip `_`,
reject non-hex characters, pair digits high nibble first. -/
def hex_loop : List Char → Option Nat → List Nat → List Nat × Bool
  | [], high, acc => hex_finish high acc
  | c :: rest, high, acc =>
    if c = ';' || isWSpace c then hex_finish high acc
    else if c = '_' then hex_loop rest high acc
    else
      let v := hex_value c
      if v < 0 then (acc, false)
      else
        match high with
        | none => hex_loop rest (some v.toNat) acc
        | some h => hex_loop rest none (acc ++ [16 * h + v.toNat])

def emit_hex_bytes (hex : List Char) : List Nat × Bool :=
  hex_loop hex none []

/-- Escape map of `emit_ascii_bytes`. -/
def escByte (e : Char) : Option Nat :=
  if e = '\\' then some 92
  else if e = '"' then some 34
  else if e = 'n' then some 10
  else if e = 'r' then some 13
  else if e = 't' then some 9
  else if e = '0' then some 0
  else none

/-- The scan loop of `emit_ascii_bytes` after the opening quote: running
off the end (missing closing quote, or a backslash at the end) and an
unsupported escape are errors. -/
def ascii_loop : List Char → List Nat → List Nat × Bool
  | [], acc => (acc, false)
  | c :: rest, acc =>
    if c = '"' then (acc, true)
    else if c = '\\' then
      match rest with
      | [] => (acc, false)
      | e :: rest2 =>
        match escByte e with
        | some b => ascii_loop rest2 (acc ++ [b])
        | none => (acc, false)
    else ascii_loop rest (acc ++ [c.toNat])

def emit_ascii_bytes (line : List Char) : List Nat × Bool :=
  match line.dropWhile (· ≠ '"') with
  | [] => ([], false)
  | _ :: rest => ascii_loop rest []

def isOctDigit (c : Char) : Bool := '0' ≤ c && c ≤ '7'

def isHexDigitC (c : Char) : Bool := 0 ≤ hex_value c

def octValue (ds : List Char) : Nat :=
  ds.foldl (fun a c => 8 * a + (c.toNat - '0'.toNat)) 0

def hexValueN (ds : List Char) : Nat :=
  ds.foldl (fun a c => 16 * a + (hex_value c).toNat) 0

/-- `strtoul(value, &endptr, 0)`: optional sign, `0x` hex / leading-`0`
octal / decimal; `none` when no conversion was performed (`endptr ==
value`); out-of-range magnitudes clamp to `ULONG_MAX` and a sign negates
in 64-bit unsigned arithmetic. -/
def strtoul0 (s : List Char) : Option Nat :=
  let s0 := s.dropWhile isWSpace
  let p := signSplit s0
  let s1 := p.2
  let mag : Option Nat :=
    if s1.take 2 = ['0', 'x'] || s1.take 2 = ['0', 'X'] then
      some (hexValueN ((s1.drop 2).takeWhile isHexDigitC))
    else if s1.take 1 = ['0'] then
      some (octValue ((s1.drop 1).takeWhile isOctDigit))
    else
      let ds := s1.takeWhile isDigitC
      if ds = [] then none else some (decValue ds)
  match mag with
  | none => none
  | some m =>
    let m2 := if 18446744073709551615 < m then 18446744073709551615 else m
    some (if p.1 then (18446744073709551616 - m2) % 18446744073709551616 else m2)

/-- `emit_pad`: text after the three characters `pad`, whitespace skipped;
missing or unconvertible value fails, otherwise that many zero bytes. -/
def emit_pad (line : List Char) : List Nat × Bool :=
  let value := (line.drop 3).dropWhile isWSpace
  if value = [] then ([], false)
  else
    match strtoul0 value with
    | none => ([], false)
    | some count => (List.replicate count 0, true)

/-- Effect of one manifest line: ignored, bytes emitted, or failure with
the bytes already streamed to the output. -/
inductive MStep where
  | mskip
  | mbytes (bs : List Nat)
  | mfail (bs : List Nat)
  deriving DecidableEq, Repr

/-- Dispatch of one (raw) manifest line, mirroring the directive checks of
`aurc_assemble_manifest` in order. -/
def processManifestLine (raw : List Char) : MStep :=
  let line := trimChars raw
  if line = [] then .mskip
  else if line.headD ' ' = '#' then .mskip
  else if startsWithChars ("bytes".data) line then
    match strstrSuffix ("0x".data) line with
    | none => .mfail []
    | some s =>
      match emit_hex_bytes (s.drop 2) with
      | (bs, ok) => if ok then .mbytes bs else .mfail bs
  else if startsWithChars ("ascii".data) line then
    match emit_ascii_bytes line with
    | (bs, ok) => if ok then .mbytes bs else .mfail bs
  else if startsWithChars ("pad".data) line then
    match emit_pad line with
    | (bs, ok) => if ok then .mbytes bs else .mfail bs
  else if startsWithChars ("halt".data) line then
    .mbytes [12, 0, 0, 0, 0, 0, 0, 0]
  else .mskip

/-- The line loop of `aurc_assemble_manifest`: accumulate bytes, stop at
the first failing directive keeping everything already written. -/
def assemble_go (lines : List (List Char)) (acc : List Nat) : List Nat × Bool :=
  match lines with
  | [] => (acc, true)
  | l :: rest =>
    match processManifestLine l with
    | .mskip => assemble_go rest acc
    | .mbytes bs => assemble_go rest (acc ++ bs)
    | .mfail bs => (acc ++ bs, false)

/-- `aurc_assemble_manifest`: the byte stream written to the binary output
file and whether assembly succeeded. -/
def aurc_assemble_manifest (lines : List (List Char)) : List Nat × Bool :=
  assemble_go lines []

/-! ## Symbolic evaluation of encoded instruction words

Field decoders for the packing rule (opcode in the top byte, operand
descriptor bytes, 32-bit immediate in the low half, sign-extended when
read back as a signed immediate). -/

def opcOf (w : Nat) : Nat := w / 72057594037927936 % 256
def op0Of (w : Nat) : Nat := w / 281474976710656 % 256
def op1Of (w : Nat) : Nat := w / 1099511627776 % 256
def op2Of (w : Nat) : Nat := w / 4294967296 % 256
def imm32Of (w : Nat) : Nat := w % 4294967296

/-- The 32-bit immediate field read back as a signed value. -/
def simmOf (w : Nat) : Int :=
  let m := w % 4294967296
  if m < 2147483648 then (m : Int) else (m : Int) - 4294967296

/-- Register-file update. -/
def regUpd (r : Nat → Int) (i : Nat) (v : Int) : Nat → Int :=
  fun j => if j = i then v else r j

/-- One straight-line instruction: immediate and register moves, and the
three-register multiply / divide / remainder forms, on unbounded signed
register contents, with C truncating division/remainder. -/
def execInstr (regs : Nat → Int) (w : Nat) : Option (Nat → Int) :=
  if opcOf w = 1 then
    if op1Of w = 255 then some (regUpd regs (op0Of w) (simmOf w))
    else if op1Of w < 8 then some (regUpd regs (op0Of w) (regs (op1Of w)))
    else none
  else if opcOf w = 13 then
    some (regUpd regs (op0Of w) (regs (op1Of w) * regs (op2Of w)))
  else if opcOf w = 14 then
    some (regUpd regs (op0Of w) (Int.tdiv (regs (op1Of w)) (regs (op2Of w))))
  else if opcOf w = 15 then
    some (regUpd regs (op0Of w) (Int.tmod (regs (op1Of w)) (regs (op2Of w))))
  else none

/-- Straight-line evaluation of a word sequence. -/
def execStraight (ws : List Nat) (regs : Nat → Int) : Option (Nat → Int) :=
  match ws with
  | [] => some regs
  | w :: rest => (execInstr regs w).bind (execStraight rest)

/-- All registers start at zero. -/
def regs0 : Nat → Int := fun _ => 0

/-- The execution semantics "accumulate counter into accumulator while
counter > 0, decrementing by 1 each iteration", unrolled on the counter:
with counter value `k + 1` one body iteration adds `k + 1` to the
accumulator and leaves counter `k`. -/
def whileAccumN : Int → Nat → Int
  | a, 0 => a
  | a, Nat.succ k => whileAccumN (a + ((k : Int) + 1)) k

/-- `n + (n-1) + ... + 1`. -/
def sumDown : Nat → Nat
  | 0 => 0
  | Nat.succ k => (k + 1) + sumDown k

/-- Symbolic evaluation of the encoded Loop-Sum template under the
execution semantics above: the eight words must decode to
`mov accR,#a; mov cntR,#n; add accR,accR,cntR; sub cntR,cntR,#1;
cmp cntR,#0; cjmp eq,label; jmp label; mov resR,accR` with distinct
accumulator/counter registers; the value left in the result register is
then the accumulator after the while loop. -/
def symEvalLoop (prog : List Nat) : Option Int :=
  match prog with
  | [w1, w2, wAdd, wSub, wCmp, wCj, wJ, wMov] =>
    let accR := op0Of w1
    let cntR := op0Of w2
    if opcOf w1 = 1 ∧ op1Of w1 = 255 ∧ accR < 8
        ∧ opcOf w2 = 1 ∧ op1Of w2 = 255 ∧ cntR < 8 ∧ accR ≠ cntR
        ∧ opcOf wAdd = 4 ∧ op0Of wAdd = accR ∧ op1Of wAdd = accR ∧ op2Of wAdd = cntR
        ∧ opcOf wSub = 5 ∧ op0Of wSub = cntR ∧ op1Of wSub = cntR
        ∧ op2Of wSub = 255 ∧ simmOf wSub = 1
        ∧ opcOf wCmp = 6 ∧ op0Of wCmp = cntR ∧ op1Of wCmp = 255 ∧ simmOf wCmp = 0
        ∧ opcOf wCj = 8 ∧ op0Of wCj = 1 ∧ op1Of wCj = 254
        ∧ opcOf wJ = 7 ∧ op0Of wJ = 254
        ∧ opcOf wMov = 1 ∧ op1Of wMov = accR then
      some (whileAccumN (simmOf w1) (simmOf w2).toNat)
    else none
  | _ => none

/-! ## Specification-side descriptions used by the theorems -/

/-- The characters at which the `bytes` directive scan stops. -/
def hexStop (c : Char) : Bool := c = ';' || isWSpace c

/-- The part of a `bytes` payload before the first whitespace or `;`. -/
def hexRegion (hex : List Char) : List Char := hex.takeWhile (fun c => !hexStop c)

/-- The digit characters of a `bytes` payload: the region with `_` removed. -/
def hexDigitsOf (hex : List Char) : List Char :=
  (hexRegion hex).filter (fun c => !(c = '_'))

/-- Pair consecutive digit values, high nibble first. -/
def decodePairs : List Nat → List Nat
  | a :: b :: r => (16 * a + b) :: decodePairs r
  | _ => []

/-- Digit pairing with a pending high nibble carried in, mirroring the
`high` state of the scan loop. -/
def pairCarry : Option Nat → List Nat → List Nat × Option Nat
  | high, [] => ([], high)
  | none, v :: r => pairCarry (some v) r
  | some h, v :: r =>
    let p := pairCarry none r
    ((16 * h + v) :: p.1, p.2)

/-- A Pi-program integer `let` line with an arbitrary initializer text. -/
def piLetLine (expr : List Char) : List Char :=
  ("let x: int = ".data) ++ expr ++ (";".data)

/-! ## Concrete inputs used by witnesses and counterexamples -/

/-- A Pi program whose numerator literal `2 ^ 64` lies outside the signed
64-bit range. -/
def piBigLines : List (List Char) :=
  [("let num: int = 18446744073709551616;".data), ("let den: int = 1;".data),
   ("let scale: int = 1;".data), ("let tmp: int = num * scale;".data),
   ("let res: int = tmp / den;".data),
   ("request service exit(res);".data), ("return res;".data)]

/-- A Pi program with two multiplication statements. -/
def twoMulPiLines : List (List Char) :=
  [("let a: int = 2;".data), ("let b: int = 3;".data),
   ("let t: int = a * b;".data), ("let u: int = a * t;".data),
   ("let r: int = t / b;".data),
   ("request service exit(r);".data), ("return r;".data)]

/-- A validated Loop-Sum IR (`sum = 0`, `n = 5`). -/
def loopIrEx : program_ir :=
  { kind := .PROGRAM_LOOP_SUM,
    loop := { accumulator := ("sum".data), accumulator_init := 0,
              counter := ("n".data), counter_init := 5,
              exit_var := ("sum".data), return_var := ("sum".data) } }

/-- A Loop-Sum IR with accumulator 5 and counter 3. -/
def loopIrW : loop_ir :=
  { accumulator := ("sum".data), accumulator_init := 5,
    counter := ("n".data), counter_init := 3,
    exit_var := ("sum".data), return_var := ("sum".data) }

/-- A Pi IR with numerator 314159, denominator 100000, scale 7. -/
def piIrW : pi_ir :=
  { numerator_value := 314159, denominator_value := 100000, scale_value := 7 }

/-! ## Helper lemmas: keyword constants as explicit character lists -/

lemma kwLetSp_eq : kwLetSp = ['l', 'e', 't', ' '] := by decide

lemma kwWhile_eq : kwWhile = ['w', 'h', 'i', 'l', 'e'] := by decide

lemma kwExitReq_eq : kwExitReq =
    ['r', 'e', 'q', 'u', 'e', 's', 't', ' ', 's', 'e', 'r', 'v', 'i', 'c', 'e', ' ',
     'e', 'x', 'i', 't'] := by decide

lemma kwReturn_eq : kwReturn = ['r', 'e', 't', 'u', 'r', 'n'] := by decide

/-- Two patterns both matching the front of the same line are comparable:
one of them matches the front of the other. -/
lemma startsWith_comparable (p q l : List Char)
    (hp : startsWithChars p l = true) (hq : startsWithChars q l = true) :
    startsWithChars p q = true ∨ startsWithChars q p = true := by
  induction p generalizing q l with
  | nil => left; rfl
  | cons a ps ih =>
    cases q with
    | nil => right; rfl
    | cons b qs =>
      cases l with
      | nil => simp [startsWithChars] at hp
      | cons c cs =>
        simp only [startsWithChars, Bool.and_eq_true, decide_eq_true_eq] at hp hq
        obtain ⟨rfl, hps⟩ := hp
        obtain ⟨rfl, hqs⟩ := hq
        rcases ih qs cs hps hqs with h | h
        · left; simp [startsWithChars, h]
        · right; simp [startsWithChars, h]

/-- If `p` matches the front of `l` and neither of `p`, `q` matches the
front of the other, then `q` does not match the front of `l`. -/
lemma startsWith_excl (p q l : List Char) (hp : startsWithChars p l = true)
    (h1 : startsWithChars p q = false) (h2 : startsWithChars q p = false) :
    startsWithChars q l = false := by
  by_contra h
  rw [Bool.not_eq_false] at h
  rcases startsWith_comparable p q l hp h with hc | hc
  · exact absurd hc (by simp [h1])
  · exact absurd hc (by simp [h2])

/-! ## Helper lemmas: instruction word packing and field decoding -/

lemma pack_fields_eq (opcode op0 op1 op2 imm32 : Nat)
    (h1 : op0 < 256) (h2 : op1 < 256) (h3 : op2 < 256)
    (h4 : imm32 < 4294967296) :
    pack_instruction_word opcode op0 op1 op2 imm32 =
      opcode * 72057594037927936 + op0 * 281474976710656 + op1 * 1099511627776
        + op2 * 4294967296 + imm32 := by
  unfold pack_instruction_word
  rw [Nat.shiftLeft_eq, Nat.shiftLeft_eq, Nat.shiftLeft_eq, Nat.shiftLeft_eq,
      Nat.or_assoc, Nat.or_assoc, Nat.or_assoc]
  rw [show op2 * 2 ^ 32 = 2 ^ 32 * op2 from Nat.mul_comm _ _,
      ← Nat.mul_add_lt_is_or (show imm32 < 2 ^ 32 by omega) op2]
  rw [show op1 * 2 ^ 40 = 2 ^ 40 * op1 from Nat.mul_comm _ _,
      ← Nat.mul_add_lt_is_or (show 2 ^ 32 * op2 + imm32 < 2 ^ 40 by omega) op1]
  rw [show op0 * 2 ^ 48 = 2 ^ 48 * op0 from Nat.mul_comm _ _,
      ← Nat.mul_add_lt_is_or (show 2 ^ 40 * op1 + (2 ^ 32 * op2 + imm32) < 2 ^ 48 by omega) op0]
  rw [show opcode * 2 ^ 56 = 2 ^ 56 * opcode from Nat.mul_comm _ _,
      ← Nat.mul_add_lt_is_or
          (show 2 ^ 48 * op0 + (2 ^ 40 * op1 + (2 ^ 32 * op2 + imm32)) < 2 ^ 56 by omega)
          opcode]
  omega

lemma decode_mov_immediate (d : Nat) (v : Int) (hd : d < 256) :
    opcOf (encode_mov_immediate d v) = 1 ∧ op0Of (encode_mov_immediate d v) = d
      ∧ op1Of (encode_mov_immediate d v) = 255 ∧ op2Of (encode_mov_immediate d v) = 0
      ∧ imm32Of (encode_mov_immediate d v) = immBits v := by
  have hi : immBits v < 4294967296 := by unfold immBits; omega
  unfold encode_mov_immediate opcOf op0Of op1Of op2Of imm32Of ISA_OPERAND_IMMEDIATE
  rw [pack_fields_eq 1 d 255 0 (immBits v) hd (by omega) (by omega) hi]
  refine ⟨by omega, by omega, by omega, by omega, by omega⟩

lemma simm_mov_immediate (d : Nat) (v : Int) (hd : d < 256)
    (h1 : -2147483648 ≤ v) (h2 : v ≤ 2147483647) :
    simmOf (encode_mov_immediate d v) = v := by
  have hfields := decode_mov_immediate d v hd
  unfold imm32Of at hfields
  simp only [simmOf]
  rw [hfields.2.2.2.2]
  unfold immBits
  split <;> omega

lemma decode_arith_reg_reg (op d l r : Nat) (hop : op < 256) (hd : d < 256)
    (hl : l < 256) (hr : r < 256) :
    opcOf (encode_arith_reg_reg op d l r) = op ∧ op0Of (encode_arith_reg_reg op d l r) = d
      ∧ op1Of (encode_arith_reg_reg op d l r) = l
      ∧ op2Of (encode_arith_reg_reg op d l r) = r := by
  unfold encode_arith_reg_reg opcOf op0Of op1Of op2Of
  rw [pack_fields_eq op d l r 0 hd hl hr (by omega)]
  refine ⟨by omega, by omega, by omega, by omega⟩

/-! ## Helper lemmas: straight-line instruction execution -/

lemma execInstr_mov_immediate (regs : Nat → Int) (d : Nat) (v : Int) (hd : d < 256)
    (h1 : -2147483648 ≤ v) (h2 : v ≤ 2147483647) :
    execInstr regs (encode_mov_immediate d v) = some (regUpd regs d v) := by
  have dd := decode_mov_immediate d v hd
  have ss := simm_mov_immediate d v hd h1 h2
  simp [execInstr, dd.1, dd.2.1, dd.2.2.1, ss]

lemma execInstr_mov_register (regs : Nat → Int) (d s : Nat) (hd : d < 256) (hs : s < 8) :
    execInstr regs (encode_mov_register d s) = some (regUpd regs d (regs s)) := by
  have dd : opcOf (encode_mov_register d s) = 1 ∧ op0Of (encode_mov_register d s) = d
      ∧ op1Of (encode_mov_register d s) = s := by
    unfold encode_mov_register opcOf op0Of op1Of
    rw [pack_fields_eq 1 d s 0 0 hd (by omega) (by omega) (by omega)]
    refine ⟨by omega, by omega, by omega⟩
  simp [execInstr, dd.1, dd.2.1, dd.2.2, hs]
  omega

lemma execInstr_mul (regs : Nat → Int) (d l r : Nat) (hd : d < 256) (hl : l < 256)
    (hr : r < 256) :
    execInstr regs (encode_arith_reg_reg 13 d l r)
      = some (regUpd regs d (regs l * regs r)) := by
  have dd := decode_arith_reg_reg 13 d l r (by omega) hd hl hr
  simp [execInstr, dd.1, dd.2.1, dd.2.2.1, dd.2.2.2]

lemma execInstr_div (regs : Nat → Int) (d l r : Nat) (hd : d < 256) (hl : l < 256)
    (hr : r < 256) :
    execInstr regs (encode_arith_reg_reg 14 d l r)
      = some (regUpd regs d (Int.tdiv (regs l) (regs r))) := by
  have dd := decode_arith_reg_reg 14 d l r (by omega) hd hl hr
  simp [execInstr, dd.1, dd.2.1, dd.2.2.1, dd.2.2.2]

lemma execInstr_rem (regs : Nat → Int) (d l r : Nat) (hd : d < 256) (hl : l < 256)
    (hr : r < 256) :
    execInstr regs (encode_arith_reg_reg 15 d l r)
      = some (regUpd regs d (Int.tmod (regs l) (regs r))) := by
  have dd := decode_arith_reg_reg 15 d l r (by omega) hd hl hr
  simp [execInstr, dd.1, dd.2.1, dd.2.2.1, dd.2.2.2]

/-- The while-loop semantics computes the initial accumulator plus the
descending sum of the counter. -/
lemma whileAccumN_eq (k : Nat) : ∀ a : Int, whileAccumN a k = a + (sumDown k : Int) := by
  induction k with
  | zero => intro a; simp [whileAccumN, sumDown]
  | succ n ih =>
    intro a
    rw [whileAccumN, ih, sumDown]
    push_cast
    ring

/-! ## Helper lemmas: character classes -/

lemma isDigitC_toNat (c : Char) (h : isDigitC c = true) : 48 ≤ c.toNat ∧ c.toNat ≤ 57 := by
  simp only [isDigitC, Bool.and_eq_true, decide_eq_true_eq] at h
  obtain ⟨h1, h2⟩ := h
  rw [Char.le_def] at h1 h2
  exact ⟨h1, h2⟩

lemma digit_ne (c : Char) (h : isDigitC c = true) (d : Char)
    (hd : d.toNat < 48 ∨ 57 < d.toNat) : c ≠ d := by
  obtain ⟨h1, h2⟩ := isDigitC_toNat c h
  intro hc
  subst hc
  omega

lemma digit_not_ws (c : Char) (h : isDigitC c = true) : isWSpace c = false := by
  simp only [isWSpace, Bool.or_eq_false_iff, decide_eq_false_iff_not]
  refine ⟨⟨⟨⟨⟨?_, ?_⟩, ?_⟩, ?_⟩, ?_⟩, ?_⟩ <;> exact digit_ne c h _ (by decide)

/-! ## Helper lemmas: list scanning -/

lemma takeWhile_all (p : Char → Bool) : ∀ xs : List Char,
    (∀ x ∈ xs, p x = true) → xs.takeWhile p = xs
  | [], _ => rfl
  | a :: as, h => by
    simp only [List.takeWhile_cons, h a (by simp), if_true]
    rw [takeWhile_all p as (fun x hx => h x (by simp [hx]))]

lemma dropWhile_eq_self_of (p : Char → Bool) (xs : List Char)
    (h : ∀ x ∈ xs, p x = false) : xs.dropWhile p = xs := by
  cases xs with
  | nil => rfl
  | cons a as => simp [List.dropWhile_cons, h a (by simp)]

lemma trimChars_eq_self (l : List Char) (h : ∀ c ∈ l, isWSpace c = false) :
    trimChars l = l := by
  unfold trimChars
  rw [dropWhile_eq_self_of isWSpace l h,
      dropWhile_eq_self_of isWSpace l.reverse (fun c hc => h c (List.mem_reverse.mp hc)),
      List.reverse_reverse]

lemma containsChar_eq_false : ∀ (l : List Char) (c : Char),
    (∀ x ∈ l, x ≠ c) → containsChar l c = false
  | [], _, _ => rfl
  | a :: as, c, h => by
    simp only [containsChar, Bool.or_eq_false_iff, decide_eq_false_iff_not]
    exact ⟨h a (by simp), containsChar_eq_false as c (fun x hx => h x (by simp [hx]))⟩

/-! ## Helper lemmas: the assembler line loop -/

lemma assemble_go_append (pre rest : List (List Char)) (acc : List Nat) :
    assemble_go (pre ++ rest) acc =
      (if (assemble_go pre acc).2 then assemble_go rest (assemble_go pre acc).1
       else assemble_go pre acc) := by
  induction pre generalizing acc with
  | nil => simp [assemble_go]
  | cons l ls ih =>
    simp only [List.cons_append, assemble_go]
    cases processManifestLine l with
    | mskip => exact ih acc
    | mbytes bs => exact ih (acc ++ bs)
    | mfail bs => simp

/-! ## Helper lemmas: the hex digit scan of the bytes directive -/

lemma hexDigitsOf_nil : hexDigitsOf [] = [] := rfl

lemma hexDigitsOf_cons_stop {c : Char} (rest : List Char) (h : hexStop c = true) :
    hexDigitsOf (c :: rest) = [] := by
  simp [hexDigitsOf, hexRegion, h]

lemma hexDigitsOf_cons_us {c : Char} (rest : List Char) (h : hexStop c = false)
    (h2 : c = '_') : hexDigitsOf (c :: rest) = hexDigitsOf rest := by
  subst h2
  simp [hexDigitsOf, hexRegion, List.takeWhile_cons, h, List.filter_cons]

lemma hexDigitsOf_cons {c : Char} (rest : List Char) (h : hexStop c = false)
    (h2 : ¬(c = '_')) : hexDigitsOf (c :: rest) = c :: hexDigitsOf rest := by
  simp [hexDigitsOf, hexRegion, List.takeWhile_cons, h, List.filter_cons, h2]

/-- On an all-valid digit region the scan loop pairs the digits, carrying
the pending high nibble, and finishes with the odd/empty checks. -/
lemma hex_loop_valid (hex : List Char) : ∀ (high : Option Nat) (acc : List Nat),
    (∀ c ∈ hexDigitsOf hex, isHexDigitC c = true) →
    hex_loop hex high acc =
      hex_finish (pairCarry high ((hexDigitsOf hex).map (fun c => (hex_value c).toNat))).2
        (acc ++ (pairCarry high ((hexDigitsOf hex).map (fun c => (hex_value c).toNat))).1) := by
  induction hex with
  | nil => intro high acc _; simp [hex_loop, hexDigitsOf_nil, pairCarry]
  | cons c rest ih =>
    intro high acc hval
    by_cases hstop : hexStop c = true
    · rw [hexDigitsOf_cons_stop rest hstop]
      simp only [hex_loop, pairCarry, List.map_nil, List.append_nil]
      rw [if_pos (show (c = ';' || isWSpace c) = true from hstop)]
    · have hstop' : hexStop c = false := by revert hstop; cases hexStop c <;> simp
      have hns : (c = ';' || isWSpace c) = false := hstop'
      by_cases hu : c = '_'
      · rw [hexDigitsOf_cons_us rest hstop' hu] at hval ⊢
        simp only [hex_loop, hns, Bool.false_eq_true, if_false, hu, if_pos]
        exact ih high acc hval
      · rw [hexDigitsOf_cons rest hstop' hu] at hval ⊢
        have hc : isHexDigitC c = true := hval c (by simp)
        have hge : ¬(hex_value c < 0) := by
          simp only [isHexDigitC, decide_eq_true_eq] at hc
          omega
        simp only [hex_loop, hns, Bool.false_eq_true, if_false, hu, if_neg, hge,
          List.map_cons]
        have hval' : ∀ a ∈ hexDigitsOf rest, isHexDigitC a = true := by
          intro a ha; exact hval a (by simp [ha])
        cases high with
        | none =>
          simp only [pairCarry]
          exact ih (some (hex_value c).toNat) acc hval'
        | some h =>
          simp only [pairCarry]
          rw [ih none (acc ++ [16 * h + (hex_value c).toNat]) hval']
          simp

/-- A non-hex character in the digit region makes the scan loop fail. -/
lemma hex_loop_invalid (hex : List Char) : ∀ (high : Option Nat) (acc : List Nat),
    (∃ c ∈ hexDigitsOf hex, isHexDigitC c = false) →
    (hex_loop hex high acc).2 = false := by
  induction hex with
  | nil => intro high acc h; simp [hexDigitsOf_nil] at h
  | cons c rest ih =>
    intro high acc hbad
    by_cases hstop : hexStop c = true
    · rw [hexDigitsOf_cons_stop rest hstop] at hbad
      simp at hbad
    · have hstop' : hexStop c = false := by revert hstop; cases hexStop c <;> simp
      have hns : (c = ';' || isWSpace c) = false := hstop'
      by_cases hu : c = '_'
      · rw [hexDigitsOf_cons_us rest hstop' hu] at hbad
        simp only [hex_loop, hns, Bool.false_eq_true, if_false, hu, if_pos]
        exact ih high acc hbad
      · rw [hexDigitsOf_cons rest hstop' hu] at hbad
        by_cases hcv : hex_value c < 0
        · simp [hex_loop, hns, hu, hcv]
        · have hcd : isHexDigitC c = true := by
            simp only [isHexDigitC, decide_eq_true_eq]
            omega
          have hbad' : ∃ a ∈ hexDigitsOf rest, isHexDigitC a = false := by
            rcases hbad with ⟨a, ha, hf⟩
            rcases List.mem_cons.mp ha with rfl | ha2
            · rw [hcd] at hf; cases hf
            · exact ⟨a, ha2, hf⟩
          cases high with
          | none =>
            simp only [hex_loop, hns, Bool.false_eq_true, if_false, hu, if_neg, hcv]
            exact ih _ _ hbad'
          | some h =>
            simp only [hex_loop, hns, Bool.false_eq_true, if_false, hu, if_neg, hcv]
            exact ih _ _ hbad'

lemma pairCarry_none_even : ∀ vs : List Nat, vs.length % 2 = 0 →
    pairCarry Option.none vs = (decodePairs vs, Option.none)
  | [], _ => by simp [pairCarry, decodePairs]
  | [v], h => by simp at h
  | a :: b :: r, h => by
    have ih := pairCarry_none_even r (by simp at h; omega)
    simp [pairCarry, decodePairs, ih]

lemma pairCarry_none_odd : ∀ vs : List Nat, vs.length % 2 = 1 →
    (pairCarry Option.none vs).2.isSome = true
  | [], h => by simp at h
  | [v], _ => by simp [pairCarry]
  | a :: b :: r, h => by
    have ih := pairCarry_none_odd r (by simp at h; omega)
    simpa [pairCarry] using ih

lemma decodePairs_length : ∀ vs : List Nat, (decodePairs vs).length = vs.length / 2
  | [] => by simp [decodePairs]
  | [v] => by simp [decodePairs]
  | a :: b :: r => by
    have ih := decodePairs_length r
    simp [decodePairs, ih]
    omega

/-! ## Helper lemmas: parsing a constructed Pi `let` line -/

lemma piLetLine_eq (expr : List Char) : piLetLine expr =
    'l' :: 'e' :: 't' :: ' ' :: 'x' :: ':' :: ' ' :: 'i' :: 'n' :: 't' :: ' '
      :: '=' :: ' ' :: (expr ++ [';']) := by
  have h1 : ("let x: int = ".data)
      = ['l', 'e', 't', ' ', 'x', ':', ' ', 'i', 'n', 't', ' ', '=', ' '] := by decide
  have h2 : (";".data) = [';'] := by decide
  unfold piLetLine
  rw [h1, h2, List.append_assoc]
  rfl

lemma scan_let_expr_concrete (tail : List Char) :
    scan_let_expr ('l' :: 'e' :: 't' :: ' ' :: 'x' :: ':' :: ' ' :: 'i' :: 'n' :: 't'
        :: ' ' :: '=' :: ' ' :: tail)
      = (scanSet (fun c => c = ';') 255 (wsSkip tail)).bind
          (fun p => some (['x'], p.1)) := rfl

lemma startsWith_let_piLetLine (expr : List Char) :
    startsWithChars kwLetSp (piLetLine expr) = true := by
  rw [piLetLine_eq]
  rfl

lemma scan_let_expr_piLetLine (expr : List Char) (hne : expr ≠ [])
    (hlen : expr.length ≤ 255)
    (hsemi : ∀ c ∈ expr, ¬(c = ';'))
    (hws : ∀ c ∈ expr, isWSpace c = false) :
    scan_let_expr (piLetLine expr) = some (['x'], expr) := by
  rw [piLetLine_eq, scan_let_expr_concrete]
  rw [show wsSkip (expr ++ [';']) = expr ++ [';'] from
    dropWhile_eq_self_of _ _ (by
      intro x hx
      rcases List.mem_append.mp hx with h | h
      · exact hws x h
      · simp at h; subst h; decide)]
  unfold scanSet
  rw [List.takeWhile_append_of_pos (by
    intro a ha
    simpa using hsemi a ha)]
  rw [show List.takeWhile (fun c => !(c = ';')) [';'] = [] by decide]
  rw [List.append_nil, List.take_of_length_le hlen]
  simp [hne]

lemma strtoll10_digits (ds : List Char) (sgn : Bool) (hne : ds ≠ [])
    (hdig : ∀ c ∈ ds, isDigitC c = true) :
    strtoll10 ((if sgn then ['-'] else []) ++ ds)
      = some (clamp64 (if sgn then -(decValue ds : Int) else (decValue ds : Int)), []) := by
  obtain ⟨d, ds2, rfl⟩ : ∃ d ds2, ds = d :: ds2 := by
    cases ds with
    | nil => exact absurd rfl hne
    | cons d ds2 => exact ⟨d, ds2, rfl⟩
  have hd := hdig d (by simp)
  have htw : (d :: ds2).takeWhile isDigitC = d :: ds2 := takeWhile_all isDigitC _ hdig
  cases sgn with
  | false =>
    rw [show ((if (false : Bool) then ['-'] else []) ++ (d :: ds2)) = d :: ds2 by simp]
    rw [show (if (false : Bool) then -(decValue (d :: ds2) : Int)
          else (decValue (d :: ds2) : Int)) = (decValue (d :: ds2) : Int) by simp]
    have hws : wsSkip (d :: ds2) = d :: ds2 :=
      dropWhile_eq_self_of _ _ (fun c hc => digit_not_ws c (hdig c hc))
    have hss : signSplit (d :: ds2) = (false, d :: ds2) := by
      simp only [signSplit]
      rw [if_neg (digit_ne d hd '-' (by decide)), if_neg (digit_ne d hd '+' (by decide))]
    simp only [strtoll10, hws, hss, htw]
    rw [if_neg (by simp)]
    simp [List.drop_length]
  | true =>
    rw [show ((if (true : Bool) then ['-'] else []) ++ (d :: ds2)) = '-' :: d :: ds2 by simp]
    rw [show (if (true : Bool) then -(decValue (d :: ds2) : Int)
          else (decValue (d :: ds2) : Int)) = -(decValue (d :: ds2) : Int) by simp]
    have hws : wsSkip ('-' :: d :: ds2) = '-' :: d :: ds2 :=
      dropWhile_eq_self_of _ _ (by
        intro c hc
        rcases List.mem_cons.mp hc with rfl | hc2
        · decide
        · exact digit_not_ws c (hdig c hc2))
    have hss : signSplit ('-' :: d :: ds2) = (true, d :: ds2) := by
      simp [signSplit]
    simp only [strtoll10, hws, hss, htw]
    rw [if_neg (by simp)]
    simp [List.drop_length]

/-! ## Helper lemmas: 32-bit wrapping -/

lemma wrap32_in_range (v : Int) :
    -2147483648 ≤ wrap32 v ∧ wrap32 v ≤ 2147483647 := by
  simp only [wrap32]
  split <;> omega

lemma ensure_wrap32 (v : Int) : ensure_signed_32_range (wrap32 v) = false := by
  have := wrap32_in_range v
  simp only [ensure_signed_32_range, Bool.or_eq_false_iff, decide_eq_false_iff_not]
  omega

/-- A successful Pi recognition always tags the IR as a Pi program. -/
lemma parse_pi_ok_kind (lines : List (List Char)) (ir0 ir : program_ir)
    (h : parse_pi_program lines ir0 = .ok ir) : ir.kind = .PROGRAM_PI_TEST := by
  unfold parse_pi_program at h
  cases hlp : pi_line_pass lines {} with
  | error e => rw [hlp] at h; simp [Except.bind] at h
  | ok st =>
    rw [hlp] at h
    simp only [Except.bind] at h
    unfold pi_second_pass at h
    split at h
    · simp at h
    · split at h
      · simp at h
      · split at h
        · simp at h
        · split at h
          · simp at h
          · split at h
            · simp at h
            · split at h
              · simp only [Except.ok.injEq] at h
                rw [← h]
              · simp at h

/-! ## Claim theorems -/

/-- Claim C1: for every Loop-Sum IR with accumulator initial value `a` and
counter initial value `n ≥ 0` (both in the signed 32-bit range the
recognizer guarantees), the instruction sequence emitted by the encoder
(mov r1,#a; mov r2,#n; loop: add r1,r1,r2; sub r2,r2,#1; cmp r2,#0;
cjmp eq exit; jmp loop; exit: mov r0,r1), evaluated under the execution
semantics "accumulate counter into accumulator while counter > 0,
decrementing by 1 each iteration", leaves `a + n + (n-1) + ... + 1` in the
result register. -/
theorem loop_template_computes_sum (ir : loop_ir)
    (ha1 : -2147483648 ≤ ir.accumulator_init) (ha2 : ir.accumulator_init ≤ 2147483647)
    (hn1 : 0 ≤ ir.counter_init) (hn2 : ir.counter_init ≤ 2147483647) :
    (emit_loop_words ir).bind symEvalLoop
      = some (ir.accumulator_init + (sumDown ir.counter_init.toNat : Int)) := by
  have e1 : ensure_signed_32_range ir.accumulator_init = false := by
    simp only [ensure_signed_32_range, Bool.or_eq_false_iff, decide_eq_false_iff_not]
    omega
  have e2 : ensure_signed_32_range ir.counter_init = false := by
    simp only [ensure_signed_32_range, Bool.or_eq_false_iff, decide_eq_false_iff_not]
    omega
  have d1 := decode_mov_immediate 1 ir.accumulator_init (by omega)
  have d2 := decode_mov_immediate 2 ir.counter_init (by omega)
  have s1 := simm_mov_immediate 1 ir.accumulator_init (by omega) ha1 ha2
  have s2 := simm_mov_immediate 2 ir.counter_init (by omega) (by omega) hn2
  simp only [emit_loop_words, e1, e2, Bool.false_eq_true, if_false, Option.some_bind,
    loop_instruction_words, symEvalLoop]
  rw [if_pos]
  · rw [s1, s2, whileAccumN_eq]
  · refine ⟨d1.1, d1.2.2.1, by rw [d1.2.1]; omega, d2.1, d2.2.2.1, by rw [d2.2.1]; omega,
      by rw [d1.2.1, d2.2.1]; omega, by decide, by rw [d1.2.1]; decide, by rw [d1.2.1]; decide,
      by rw [d2.2.1]; decide, by decide, by rw [d2.2.1]; decide, by rw [d2.2.1]; decide,
      by decide, by decide, by decide, by rw [d2.2.1]; decide, by decide, by decide,
      by decide, by decide, by decide, by decide, by decide, by decide, by rw [d1.2.1]; decide⟩

/-- Witness for C1 at accumulator 5, counter 3: the template evaluates to
5 + 3 + 2 + 1 = 11. -/
theorem loop_template_computes_sum_witness :
    (emit_loop_words loopIrW).bind symEvalLoop = some 11 :=
  (loop_template_computes_sum loopIrW (by decide) (by decide) (by decide)
    (by decide)).trans (by decide)

/-- Claim C2: for every Pi IR with numerator `N`, denominator `D ≠ 0` and
scale `S` in the signed 32-bit range, the instruction sequence emitted by
the encoder (mov r1,#N; mov r2,#D; mov r3,#S; mul r4,r1,r3; rem r6,r4,r2;
div r5,r4,r2; mov r0,r5), evaluated symbolically, leaves `(N * S) / D`
with C truncating integer division in register R0. -/
theorem pi_template_computes_quotient (ir : pi_ir)
    (hn1 : -2147483648 ≤ ir.numerator_value) (hn2 : ir.numerator_value ≤ 2147483647)
    (hd1 : -2147483648 ≤ ir.denominator_value) (hd2 : ir.denominator_value ≤ 2147483647)
    (hs1 : -2147483648 ≤ ir.scale_value) (hs2 : ir.scale_value ≤ 2147483647)
    (hden : ir.denominator_value ≠ 0) :
    ((emit_pi_words ir).bind (fun ws => (execStraight ws regs0).map (fun r => r 0)))
      = some (Int.tdiv (ir.numerator_value * ir.scale_value) ir.denominator_value) := by
  have e1 : ensure_signed_32_range ir.numerator_value = false := by
    simp only [ensure_signed_32_range, Bool.or_eq_false_iff, decide_eq_false_iff_not]; omega
  have e2 : ensure_signed_32_range ir.denominator_value = false := by
    simp only [ensure_signed_32_range, Bool.or_eq_false_iff, decide_eq_false_iff_not]; omega
  have e3 : ensure_signed_32_range ir.scale_value = false := by
    simp only [ensure_signed_32_range, Bool.or_eq_false_iff, decide_eq_false_iff_not]; omega
  simp only [emit_pi_words, e1, e2, e3, Bool.false_eq_true, if_false, Option.some_bind,
    pi_instruction_words, execStraight]
  rw [execInstr_mov_immediate regs0 1 ir.numerator_value (by omega) hn1 hn2]
  simp only [Option.some_bind]
  rw [execInstr_mov_immediate _ 2 ir.denominator_value (by omega) hd1 hd2]
  simp only [Option.some_bind]
  rw [execInstr_mov_immediate _ 3 ir.scale_value (by omega) hs1 hs2]
  simp only [Option.some_bind]
  rw [execInstr_mul _ 4 1 3 (by omega) (by omega) (by omega)]
  simp only [Option.some_bind]
  rw [execInstr_rem _ 6 4 2 (by omega) (by omega) (by omega)]
  simp only [Option.some_bind]
  rw [execInstr_div _ 5 4 2 (by omega) (by omega) (by omega)]
  simp only [Option.some_bind]
  rw [execInstr_mov_register _ 0 5 (by omega) (by omega)]
  simp only [Option.some_bind, Option.map_some']
  simp [regUpd]

/-- Witness for C2 at N=314159, D=100000, S=7: R0 receives
tdiv (314159 * 7) 100000 = 21. -/
theorem pi_template_computes_quotient_witness :
    ((emit_pi_words piIrW).bind (fun ws => (execStraight ws regs0).map (fun r => r 0)))
      = some 21 :=
  (pi_template_computes_quotient piIrW (by decide) (by decide) (by decide) (by decide)
    (by decide) (by decide) (by decide)).trans (by decide)

/-- Claim C3: the shape classifier applies exactly this precedence, first
match wins: a line starting with `while` selects the Loop-Sum recognizer;
else a line containing `*` or `/` selects the Pi recognizer; else a line
containing `: string =` selects the String recognizer; else compilation
fails with the unsupported-shape error. In particular a line sequence with
both a while-line and an arithmetic line is always treated as Loop-Sum. -/
theorem shape_classifier_precedence (lines : List (List Char)) :
    (lines.any (fun l => startsWithChars kwWhile l) = true →
      parse_source_lines lines = parse_loop_sum_program lines init_ir)
  ∧ (lines.any (fun l => startsWithChars kwWhile l) = false →
     lines.any (fun l => containsChar l '*' || containsChar l '/') = true →
      parse_source_lines lines = parse_pi_program lines init_ir)
  ∧ (lines.any (fun l => startsWithChars kwWhile l) = false →
     lines.any (fun l => containsChar l '*' || containsChar l '/') = false →
     lines.any (fun l => containsSub strTypeMarker l) = true →
      parse_source_lines lines = parse_string_program lines init_ir)
  ∧ (lines.any (fun l => startsWithChars kwWhile l) = false →
     lines.any (fun l => containsChar l '*' || containsChar l '/') = false →
     lines.any (fun l => containsSub strTypeMarker l) = false →
      parse_source_lines lines = .error .UnsupportedShape) := by
  refine ⟨?_, ?_, ?_, ?_⟩ <;> intros <;> simp [parse_source_lines, *]

/-- Witness for C3: a line sequence containing both a while-line and an
arithmetic line goes to the Loop-Sum recognizer. -/
theorem shape_classifier_precedence_witness :
    parse_source_lines [("while n > 0 \x7b".data), ("let x: int = 2*3;".data)]
      = parse_loop_sum_program [("while n > 0 \x7b".data), ("let x: int = 2*3;".data)]
          init_ir :=
  (shape_classifier_precedence _).1 (by decide)

/-- Claim C4 as amended: assembling a manifest with a malformed directive
fails (nonzero status, no further directive processed), but the binary
output retains the bytes already emitted for the directives preceding the
malformed one, plus any bytes the malformed directive streamed before its
error was detected; partial output is not removed. -/
theorem assemble_fails_retaining_prefix (pre : List (List Char)) (m : List Char)
    (post : List (List Char)) (bs : List Nat)
    (hpre : (aurc_assemble_manifest pre).2 = true)
    (hm : processManifestLine m = .mfail bs) :
    aurc_assemble_manifest (pre ++ m :: post)
      = ((aurc_assemble_manifest pre).1 ++ bs, false) := by
  unfold aurc_assemble_manifest at hpre ⊢
  rw [assemble_go_append, if_pos hpre]
  simp [assemble_go, hm]

/-- Counterexample to C4 as stated: the manifest `bytes 0x0C00` followed by
the malformed `bytes 0xZZ` fails, yet the binary output contains the two
bytes 0x0C 0x00 of the preceding directive, not no bytes. -/
theorem assemble_retains_partial_output :
    aurc_assemble_manifest [("bytes 0x0C00".data), ("bytes 0xZZ".data)]
      = ([12, 0], false) := by decide

/-- Witness for the amended C4: a `halt` line, then a `pad` directive with
a missing value, then another `halt`; assembly fails after the first halt
word and the later halt is not processed. -/
theorem assemble_fails_retaining_prefix_witness :
    aurc_assemble_manifest ([("halt".data)] ++ ("pad".data) :: [("halt".data)])
      = ((aurc_assemble_manifest [("halt".data)]).1 ++ [], false) :=
  assemble_fails_retaining_prefix [("halt".data)] ("pad".data) [("halt".data)] []
    (by decide) (by decide)

/-- Claim C5 as amended: lines matching none of a recognizer's statement
prefixes are ignored; a prefix-matching line whose remainder does not
parse is not uniformly an error: the Loop-Sum recognizer fails on a
malformed exit or return statement, while the String recognizer silently
ignores every prefix-matching line whose remainder does not parse, for
each of its four statement prefixes (let, print request, exit request,
return). -/
theorem recognizer_malformed_line_policy :
    (∀ ir l, startsWithChars kwLetSp l = false → startsWithChars kwPrintReq l = false →
       startsWithChars kwExitReq l = false → startsWithChars kwReturn l = false →
       stepString ir l = .ok ir)
  ∧ (∀ ir l, startsWithChars kwLetSp l = true → scan_let_string l = none →
       stepString ir l = .ok ir)
  ∧ (∀ ir l, startsWithChars kwPrintReq l = true → scan_print_arg l = none →
       stepString ir l = .ok ir)
  ∧ (∀ ir l, startsWithChars kwExitReq l = true → scan_exit_int l = none →
       stepString ir l = .ok ir)
  ∧ (∀ ir l, startsWithChars kwReturn l = true → scan_return_int l = none →
       stepString ir l = .ok ir)
  ∧ (∀ i st l, startsWithChars kwLetSp l = false → startsWithChars kwWhile l = false →
       startsWithChars kwExitReq l = false → startsWithChars kwReturn l = false →
       stepLoop i st l = .ok st)
  ∧ (∀ i st l, startsWithChars kwExitReq l = true → scan_exit_var l = none →
       stepLoop i st l = .error .MalformedExitStmt)
  ∧ (∀ i st l, startsWithChars kwReturn l = true → scan_return_var l = none →
       stepLoop i st l = .error .MalformedReturnStmt) := by
  refine ⟨?_, ?_, ?_, ?_, ?_, ?_, ?_, ?_⟩
  · intro ir l h1 h2 h3 h4
    simp [stepString, h1, h2, h3, h4]
  · intro ir l h1 h2
    simp [stepString, h1, h2]
  · intro ir l hpr hscan
    have hlet : startsWithChars kwLetSp l = false :=
      startsWith_excl kwPrintReq kwLetSp l hpr (by decide) (by decide)
    simp [stepString, hlet, hpr, hscan]
  · intro ir l hex hscan
    have hlet : startsWithChars kwLetSp l = false :=
      startsWith_excl kwExitReq kwLetSp l hex (by decide) (by decide)
    have hpr : startsWithChars kwPrintReq l = false :=
      startsWith_excl kwExitReq kwPrintReq l hex (by decide) (by decide)
    simp [stepString, hlet, hpr, hex, hscan]
  · intro ir l hret hscan
    have hlet : startsWithChars kwLetSp l = false :=
      startsWith_excl kwReturn kwLetSp l hret (by decide) (by decide)
    have hpr : startsWithChars kwPrintReq l = false :=
      startsWith_excl kwReturn kwPrintReq l hret (by decide) (by decide)
    have hex : startsWithChars kwExitReq l = false :=
      startsWith_excl kwReturn kwExitReq l hret (by decide) (by decide)
    simp [stepString, hlet, hpr, hex, hret, hscan]
  · intro i st l h1 h2 h3 h4
    simp [stepLoop, h1, h2, h3, h4]
  · intro i st l hex hscan
    obtain ⟨c1, c2, c3, rest, rfl⟩ :
        ∃ c1 c2 c3 rest, l = c1 :: c2 :: c3 :: rest := by
      rw [kwExitReq_eq] at hex
      match l with
      | [] => simp [startsWithChars] at hex
      | [a] => simp [startsWithChars] at hex
      | [a, b] => simp [startsWithChars] at hex
      | a :: b :: c :: rest => exact ⟨a, b, c, rest, rfl⟩
    have hc : c1 = 'r' ∧ c2 = 'e' ∧ c3 = 'q' := by
      rw [kwExitReq_eq] at hex
      simp [startsWithChars] at hex
      exact ⟨hex.1.symm, hex.2.1.symm, hex.2.2.1.symm⟩
    obtain ⟨rfl, rfl, rfl⟩ := hc
    have hlet : startsWithChars kwLetSp ('r' :: 'e' :: 'q' :: rest) = false := by
      rw [kwLetSp_eq]; simp [startsWithChars]
    have hwh : startsWithChars kwWhile ('r' :: 'e' :: 'q' :: rest) = false := by
      rw [kwWhile_eq]; simp [startsWithChars]
    simp [stepLoop, hlet, hwh, hex, hscan]
  · intro i st l hret hscan
    obtain ⟨c1, c2, c3, rest, rfl⟩ :
        ∃ c1 c2 c3 rest, l = c1 :: c2 :: c3 :: rest := by
      rw [kwReturn_eq] at hret
      match l with
      | [] => simp [startsWithChars] at hret
      | [a] => simp [startsWithChars] at hret
      | [a, b] => simp [startsWithChars] at hret
      | a :: b :: c :: rest => exact ⟨a, b, c, rest, rfl⟩
    have hc : c1 = 'r' ∧ c2 = 'e' ∧ c3 = 't' := by
      rw [kwReturn_eq] at hret
      simp [startsWithChars] at hret
      exact ⟨hret.1.symm, hret.2.1.symm, hret.2.2.1.symm⟩
    obtain ⟨rfl, rfl, rfl⟩ := hc
    have hlet : startsWithChars kwLetSp ('r' :: 'e' :: 't' :: rest) = false := by
      rw [kwLetSp_eq]; simp [startsWithChars]
    have hwh : startsWithChars kwWhile ('r' :: 'e' :: 't' :: rest) = false := by
      rw [kwWhile_eq]; simp [startsWithChars]
    have hex : startsWithChars kwExitReq ('r' :: 'e' :: 't' :: rest) = false := by
      rw [kwExitReq_eq]; simp [startsWithChars]
    simp [stepLoop, hlet, hwh, hex, hret, hscan]

/-- Witness for the amended C5: the Loop-Sum recognizer fails on the
malformed exit line `request service exit();`, while the String recognizer
ignores the malformed binding line `let x: string = oops;`, the malformed
print line `request service print;`, the malformed exit line
`request service exit(x);` and the malformed return line `return x;`. -/
theorem recognizer_malformed_line_policy_witness :
    stepLoop 0 {} ("request service exit();".data) = .error .MalformedExitStmt
      ∧ stepString init_ir ("let x: string = oops;".data) = .ok init_ir
      ∧ stepString init_ir ("request service print;".data) = .ok init_ir
      ∧ stepString init_ir ("request service exit(x);".data) = .ok init_ir
      ∧ stepString init_ir ("return x;".data) = .ok init_ir :=
  ⟨recognizer_malformed_line_policy.2.2.2.2.2.2.1 0 {} _ (by decide) (by decide),
   recognizer_malformed_line_policy.2.1 init_ir _ (by decide) (by decide),
   recognizer_malformed_line_policy.2.2.1 init_ir _ (by decide) (by decide),
   recognizer_malformed_line_policy.2.2.2.1 init_ir _ (by decide) (by decide),
   recognizer_malformed_line_policy.2.2.2.2.1 init_ir _ (by decide) (by decide)⟩

/-- Counterexample to C5 as stated: the String recognizer accepts a line
sequence whose only line matches its `let ` prefix but has an unparsable
remainder; the recognizer does not fail with an error. -/
theorem malformed_let_not_rejected :
    (parse_string_program [("let x: string = oops;".data)] init_ir).isOk = true := by
  decide

/-- Claim C6: `emit_hex_bytes` decodes the hex digits before the first
whitespace or `;` (with `_` skipped) into bytes pairing consecutive digits
high nibble first; it fails when a non-hex character appears before the
stopping point, when the digit count is odd, or when no byte is produced,
and otherwise emits exactly `digits / 2` bytes equal to that decoding. -/
theorem hex_bytes_directive_decode (hex : List Char) :
    ((∀ c ∈ hexDigitsOf hex, isHexDigitC c = true) ∧ (hexDigitsOf hex).length % 2 = 0
        ∧ hexDigitsOf hex ≠ [] →
      emit_hex_bytes hex
        = (decodePairs ((hexDigitsOf hex).map (fun c => (hex_value c).toNat)), true)
      ∧ (emit_hex_bytes hex).1.length = (hexDigitsOf hex).length / 2)
  ∧ (¬ ((∀ c ∈ hexDigitsOf hex, isHexDigitC c = true) ∧ (hexDigitsOf hex).length % 2 = 0
        ∧ hexDigitsOf hex ≠ []) → (emit_hex_bytes hex).2 = false) := by
  constructor
  · rintro ⟨hval, heven, hne⟩
    have hlen : ((hexDigitsOf hex).map (fun c => (hex_value c).toNat)).length % 2 = 0 := by
      simpa using heven
    have hmain : emit_hex_bytes hex
        = (decodePairs ((hexDigitsOf hex).map (fun c => (hex_value c).toNat)), true) := by
      unfold emit_hex_bytes
      rw [hex_loop_valid hex Option.none [] hval, pairCarry_none_even _ hlen]
      simp only [hex_finish, List.nil_append]
      have hni : ¬((decodePairs ((hexDigitsOf hex).map (fun c => (hex_value c).toNat))).isEmpty
          = true) := by
        intro hemp
        have h2 : decodePairs ((hexDigitsOf hex).map (fun c => (hex_value c).toNat)) = [] := by
          simpa [List.isEmpty_iff] using hemp
        have h3 := congrArg List.length h2
        rw [decodePairs_length] at h3
        simp only [List.length_map, List.length_nil] at h3
        have h4 : (hexDigitsOf hex).length ≠ 0 := fun h0 => hne (List.length_eq_zero.mp h0)
        omega
      rw [if_neg hni]
    refine ⟨hmain, ?_⟩
    rw [hmain, decodePairs_length]
    simp
  · intro hnot
    by_cases hval : ∀ c ∈ hexDigitsOf hex, isHexDigitC c = true
    · by_cases hne : hexDigitsOf hex = []
      · unfold emit_hex_bytes
        rw [hex_loop_valid hex Option.none [] hval, hne]
        simp [pairCarry, hex_finish]
      · have hodd : (hexDigitsOf hex).length % 2 = 1 := by
          rcases Nat.mod_two_eq_zero_or_one (hexDigitsOf hex).length with h | h
          · exact absurd ⟨hval, h, hne⟩ hnot
          · exact h
        unfold emit_hex_bytes
        rw [hex_loop_valid hex Option.none [] hval]
        have hsome : (pairCarry Option.none
            ((hexDigitsOf hex).map (fun c => (hex_value c).toNat))).2.isSome = true := by
          apply pairCarry_none_odd
          simpa using hodd
        rcases hs : (pairCarry Option.none
            ((hexDigitsOf hex).map (fun c => (hex_value c).toNat))).2 with _ | v
        · rw [hs] at hsome; simp at hsome
        · simp [hex_finish, hs]
    · push_neg at hval
      rcases hval with ⟨c, hc, hf⟩
      apply hex_loop_invalid
      exact ⟨c, hc, by revert hf; cases isHexDigitC c <;> simp⟩

/-- Witness for C6: the payload `0C_2A  ; tail` decodes to the two bytes
0x0C 0x2A, the underscore skipped and the scan stopped at the space. -/
theorem hex_bytes_directive_decode_witness :
    emit_hex_bytes ("0C_2A  ; tail".data) = ([12, 42], true)
      ∧ (emit_hex_bytes ("0C_2A  ; tail".data)).1.length = 2 :=
  ⟨((hex_bytes_directive_decode (("0C_2A  ; tail".data))).1 (by decide)).1.trans (by decide),
   by rw [((hex_bytes_directive_decode (("0C_2A  ; tail".data))).1 (by decide)).2]; decide⟩

/-- Claim C7: on a line sequence classified as a Pi program (no while-line,
some `*` or `/` line), a failing Pi recognition propagates its error
through `aurc_compile_file` with no manifest produced, and a recognized
Pi IR whose denominator value is 0 is rejected by validation before any
instruction is encoded, again with no manifest produced. -/
theorem pi_invalid_rejected_before_encoding (raw ls : List (List Char))
    (hload : load_lines raw = .ok ls)
    (hwhile : ls.any (fun l => startsWithChars kwWhile l) = false)
    (harith : ls.any (fun l => containsChar l '*' || containsChar l '/') = true) :
    (∀ e, parse_pi_program ls init_ir = .error e → aurc_compile_file raw = .error e)
  ∧ (∀ ir, parse_pi_program ls init_ir = .ok ir → ir.pi.denominator_value = 0 →
       (aurc_compile_file raw = .error .PiMissingBindings
        ∨ aurc_compile_file raw = .error .DenominatorZero)) := by
  have hps : parse_source raw = parse_pi_program ls init_ir := by
    unfold parse_source
    rw [hload]
    simp [Except.bind, parse_source_lines, hwhile, harith]
  constructor
  · intro e he
    unfold aurc_compile_file load_program_ir
    rw [hps, he]
    simp [Except.bind, Except.map]
  · intro ir hok hden
    have hkind := parse_pi_ok_kind ls init_ir ir hok
    unfold aurc_compile_file load_program_ir
    rw [hps, hok]
    simp only [Except.bind]
    by_cases hvars : ir.pi.numerator_var = [] ∨ ir.pi.denominator_var = []
        ∨ ir.pi.scale_var = []
    · left
      simp only [validate_program, hkind, Except.map]
      rw [if_pos (show (decide (ir.pi.numerator_var = []) || decide (ir.pi.denominator_var = [])
            || decide (ir.pi.scale_var = [])) = true by rcases hvars with h | h | h <;> simp [h])]
    · right
      push_neg at hvars
      simp [validate_program, hkind, hvars.1, hvars.2.1, hvars.2.2, hden, Except.map]

/-- Witness for C7 at the two-multiplication boundary program: compilation
fails with the duplicate-multiplication error and produces no manifest. -/
theorem pi_invalid_rejected_witness :
    aurc_compile_file twoMulPiLines = .error .MultipleMul :=
  (pi_invalid_rejected_before_encoding twoMulPiLines twoMulPiLines
      (by decide) (by decide) (by decide)).1 .MultipleMul (by decide)

/-- Claim C8: the manifest writer is deterministic — emitting the manifest
twice from equal IRs yields byte-identical manifest text. -/
theorem emit_manifest_deterministic (ir1 ir2 : program_ir) (h : ir1 = ir2) :
    emit_manifest ir1 = emit_manifest ir2 := by rw [h]

/-- Witness for C8 on a concrete validated Loop-Sum IR. -/
theorem emit_manifest_deterministic_witness :
    emit_manifest loopIrEx = emit_manifest loopIrEx :=
  emit_manifest_deterministic loopIrEx loopIrEx rfl

/-- Claim C9: an otherwise well-formed String program whose exit and return
statements carry the same nonzero value is rejected by the validator with
the only-exit-code-0 error, not compiled. -/
theorem string_nonzero_exit_rejected (ir : program_ir)
    (hk : ir.kind = .PROGRAM_STRING)
    (hb : ir.bindings.length ≠ 0)
    (hp : ir.have_print = true) (he : ir.have_exit = true) (hr : ir.have_return = true)
    (hidx : 0 ≤ ir.print_binding_index)
    (hidx2 : ir.print_binding_index < (ir.bindings.length : Int))
    (hname : ir.print_arg = (ir.bindings.getD ir.print_binding_index.toNat ⟨[], []⟩).name)
    (heq : ir.exit_value = ir.return_value) (hnz : ir.exit_value ≠ 0) :
    validate_program ir = .error .ExitCodeNonZero := by
  have h1 : ¬ (ir.print_binding_index < 0) := by omega
  have h2 : ¬ ((ir.bindings.length : Int) ≤ ir.print_binding_index) := by omega
  simp [validate_program, hk, hb, hp, he, hr, h1, h2, hname, heq, hnz, Except.bind,
    List.getD]
  omega

/-- Witness for C9 on a well-formed String IR with exit = return = 3. -/
theorem string_nonzero_exit_rejected_witness :
    validate_program { kind := .PROGRAM_STRING,
                       bindings := [⟨("g".data), ("hi".data)⟩],
                       print_binding_index := 0, print_arg := ("g".data),
                       have_print := true, have_exit := true, have_return := true,
                       exit_value := 3, return_value := 3 }
      = .error .ExitCodeNonZero :=
  string_nonzero_exit_rejected _ (by decide) (by decide) (by decide) (by decide)
    (by decide) (by decide) (by decide) (by decide) (by decide) (by decide)

/-- Claim C10 as amended: Pi integer literal initializers are parsed with
64-bit `strtoll` semantics, clamping to the signed 64-bit bounds on
overflow, and the parsed value is truncated modulo `2 ^ 32` to a signed
32-bit value in the binding table, so a literal whose clamped 64-bit value
lies outside the signed 32-bit range is stored reduced modulo `2 ^ 32`
rather than rejected; consequently the encoder's signed-32-bit immediate
range check never fails on values stored by the Pi recognizer. -/
theorem pi_literal_initializer_wrapped (st : pi_scan) (ds : List Char) (sgn : Bool)
    (hne : ds ≠ []) (hdig : ∀ c ∈ ds, isDigitC c = true) (hlen : ds.length ≤ 254)
    (hcap : st.bindings.length < 8) :
    stepPi st (piLetLine ((if sgn then ['-'] else []) ++ ds))
      = .ok { st with bindings := st.bindings
          ++ [⟨['x'], wrap32 (clamp64
                (if sgn then -(decValue ds : Int) else (decValue ds : Int)))⟩] }
  ∧ (∀ v : Int, ensure_signed_32_range (wrap32 v) = false)
  ∧ (∀ ir : pi_ir, (∃ a b c : Int, ir.numerator_value = wrap32 a
        ∧ ir.denominator_value = wrap32 b ∧ ir.scale_value = wrap32 c) →
      (emit_pi_words ir).isSome = true) := by
  refine ⟨?_, ensure_wrap32, ?_⟩
  · set expr : List Char := (if sgn then ['-'] else []) ++ ds with hexpr
    have hmem : ∀ c ∈ expr, c = '-' ∨ isDigitC c = true := by
      intro c hc
      rw [hexpr] at hc
      rcases List.mem_append.mp hc with h | h
      · cases sgn with
        | false => simp at h
        | true => simp at h; exact Or.inl h
      · exact Or.inr (hdig c h)
    have hws : ∀ c ∈ expr, isWSpace c = false := by
      intro c hc
      rcases hmem c hc with rfl | h
      · decide
      · exact digit_not_ws c h
    have hsemi : ∀ c ∈ expr, ¬(c = ';') := by
      intro c hc
      rcases hmem c hc with rfl | h
      · decide
      · exact digit_ne c h ';' (by decide)
    have hexprne : expr ≠ [] := by
      rw [hexpr]
      cases sgn <;> simp [hne]
    have hexprlen : expr.length ≤ 255 := by
      rw [hexpr]
      cases sgn <;> simp <;> omega
    unfold stepPi
    rw [if_pos (startsWith_let_piLetLine expr)]
    rw [scan_let_expr_piLetLine expr hexprne hexprlen hsemi hws]
    have htrx : trimChars ['x'] = ['x'] := by decide
    have htre : trimChars expr = expr := trimChars_eq_self expr hws
    simp only [htrx, htre]
    rw [show containsChar expr '*' = false from
      containsChar_eq_false expr '*' (by
        intro x hx
        rcases hmem x hx with rfl | h
        · decide
        · exact digit_ne x h '*' (by decide))]
    rw [show containsChar expr '/' = false from
      containsChar_eq_false expr '/' (by
        intro x hx
        rcases hmem x hx with rfl | h
        · decide
        · exact digit_ne x h '/' (by decide))]
    simp only [Bool.false_eq_true, if_false]
    rw [hexpr, strtoll10_digits ds sgn hne hdig]
    simp only [ne_eq, not_true_eq_false, Bool.false_eq_true, if_false, reduceIte]
    rw [if_neg (by omega)]
  · rintro ir ⟨a, b, c, ha, hb, hc⟩
    unfold emit_pi_words
    rw [ha, hb, hc, ensure_wrap32, ensure_wrap32, ensure_wrap32]
    simp

/-- Counterexample to C10 as stated: the literal `2 ^ 64` compiles, but the
stored numerator value is -1 (the truncation of the clamped `strtoll`
result, INT64_MAX), not `2 ^ 64` reduced modulo `2 ^ 32`, which is 0. -/
theorem pi_big_literal_not_mod_2_32 :
    (load_program_ir piBigLines).map (fun ir => ir.pi.numerator_value) = .ok (-1)
      ∧ wrap32 18446744073709551616 = 0 ∧ ((-1 : Int) = 0) = False := by decide

/-- Witness for the amended C10: the out-of-range literal 4294967299 is
stored as 4294967299 mod 2^32 = 3. -/
theorem pi_literal_initializer_wrapped_witness :
    stepPi {} (piLetLine ((if false then ['-'] else []) ++ ("4294967299".data)))
      = .ok { bindings := [⟨['x'], 3⟩] } :=
  ((pi_literal_initializer_wrapped {} (("4294967299".data)) false (by decide) (by decide)
    (by decide) (by decide)).1).trans (by decide)

end Aurc
